import Mathlib

/-
  Verification of the browser-n8n-local task orchestrator.

  Shallow embedding of the Python sources:
    app/models.py, app/routes.py, task/executor.py, task/utils.py,
    task/screenshot.py, task/llm_pool.py, task/llm.py, task/constants.py.
  The task storage implementation (task/storage/memory.py, task/storage/base.py)
  is not present in the source tree; its operations are modelled from the
  specification (section 4.2) and are marked as such in their doc comments.
-/

namespace BrowserBridge

/-- Task status enum from task/constants.py (class TaskStatus). -/
inductive TaskStatus
  | created
  | running
  | finished
  | stopped
  | paused
  | failed
  | stopping
deriving DecidableEq, Repr

/-- String value of each TaskStatus member, from task/constants.py. -/
def TaskStatus.toStr : TaskStatus → String
  | .created => "created"
  | .running => "running"
  | .finished => "finished"
  | .stopped => "stopped"
  | .paused => "paused"
  | .failed => "failed"
  | .stopping => "stopping"

/-- Terminal statuses, as enumerated in routes.py stop_task and get_task_media:
FINISHED, FAILED, STOPPED. -/
def TaskStatus.isTerminal : TaskStatus → Bool
  | .finished => true
  | .failed => true
  | .stopped => true
  | _ => false

/-- One step record, appended by get_task_status in routes.py: carries the
sequence number and a timestamp (the two free-text progress fields are kept
as one string each in routes.py; only the number matters here). -/
structure StepRecord where
  step : Nat
  timestamp : String
  nextGoal : String
  evaluationPreviousGoal : String
deriving DecidableEq, Repr

/-- One media entry, appended by validate_and_save_screenshot in screenshot.py. -/
structure MediaEntry where
  url : String
  mediaType : String
  filename : String
  createdAt : String
deriving DecidableEq, Repr

/-- Browser data collected by collect_browser_cookies in executor.py. -/
structure BrowserData where
  cookies : List String
  collectError : Option String
deriving DecidableEq, Repr

/-- The task record, as the dict literal built in routes.py run_task
(lines 56 to 78) and mutated through the storage operations. -/
structure Task where
  id : String
  instruction : String
  aiProvider : Option String
  status : TaskStatus
  createdAt : String
  finishedAt : Option String
  output : Option String
  error : Option String
  steps : List StepRecord
  saveBrowserData : Option Bool
  browserData : Option BrowserData
  media : List MediaEntry
  liveUrl : String
deriving DecidableEq, Repr

/-- The live external-agent handle, held in a side table keyed by task id
(spec section 3, Ownership). Only the flags set by its stop, pause and
resume methods are modelled; the agent itself is an external collaborator. -/
structure AgentHandle where
  stopRequested : Bool
  pauseRequested : Bool
deriving DecidableEq, Repr

/-- Modelled from the spec: the fixed default owner identifier
(task/storage/base.py DEFAULT_USER_ID is not in the source tree; the
live_view page in routes.py compares the user id against the literal
string shown here). -/
def DEFAULT_USER_ID : String := "default"

/-- Modelled from the spec: the in-memory task store
(task/storage/memory.py is not in the source tree). Tasks are owned
records keyed by owner and task id; agent handles live in a side table
keyed by task id (spec sections 3 and 4.2). -/
structure TaskStore where
  tasks : List (String × String × Task)
  agents : List (String × AgentHandle)
deriving DecidableEq, Repr

/-- Modelled from the spec: get by id and owner; a lookup under the wrong
owner behaves identically to not-found (spec section 4.2). -/
def get_task (s : TaskStore) (taskId userId : String) : Option Task :=
  (s.tasks.find? (fun e => e.1 == userId && e.2.1 == taskId)).map (fun e => e.2.2)

/-- Modelled from the spec: point update of one owned task record. -/
def update_task_rec (s : TaskStore) (taskId userId : String) (f : Task → Task) :
    TaskStore :=
  { s with tasks := s.tasks.map (fun e =>
      if e.1 == userId && e.2.1 == taskId then (e.1, e.2.1, f e.2.2) else e) }

/-- Modelled from the spec: create stores a fresh owned task record. -/
def create_task (s : TaskStore) (taskId : String) (t : Task) (userId : String) :
    TaskStore :=
  { s with tasks := s.tasks ++ [(userId, taskId, t)] }

/-- Modelled from the spec: update-status sets the status field only. -/
def update_task_status (s : TaskStore) (taskId : String) (st : TaskStatus)
    (userId : String) : TaskStore :=
  update_task_rec s taskId userId (fun t => { t with status := st })

/-- Modelled from the spec: mark-finished sets finished-at and status
together (spec section 4.2). -/
def mark_task_finished (s : TaskStore) (taskId userId : String)
    (st : TaskStatus) (now : String) : TaskStore :=
  update_task_rec s taskId userId
    (fun t => { t with status := st, finishedAt := some now })

/-- Modelled from the spec: set-output stores the final textual result. -/
def set_task_output (s : TaskStore) (taskId : String) (out : String)
    (userId : String) : TaskStore :=
  update_task_rec s taskId userId (fun t => { t with output := some out })

/-- Modelled from the spec: set-error stores the failure text. -/
def set_task_error (s : TaskStore) (taskId : String) (err : String)
    (userId : String) : TaskStore :=
  update_task_rec s taskId userId (fun t => { t with error := some err })

/-- Modelled from the spec: append-step. -/
def add_task_step (s : TaskStore) (taskId : String) (st : StepRecord)
    (userId : String) : TaskStore :=
  update_task_rec s taskId userId (fun t => { t with steps := t.steps ++ [st] })

/-- Modelled from the spec: append-media. -/
def add_task_media (s : TaskStore) (taskId : String) (m : MediaEntry)
    (userId : String) : TaskStore :=
  update_task_rec s taskId userId (fun t => { t with media := t.media ++ [m] })

/-- Modelled from the spec: merge arbitrary fields; used by
collect_browser_cookies to store the browser_data slot. -/
def update_task_browser_data (s : TaskStore) (taskId : String)
    (bd : BrowserData) (userId : String) : TaskStore :=
  update_task_rec s taskId userId (fun t => { t with browserData := some bd })

/-- Modelled from the spec: agent-handle lookup by task id. -/
def get_task_agent (s : TaskStore) (taskId : String) : Option AgentHandle :=
  (s.agents.find? (fun e => e.1 == taskId)).map (fun e => e.2)

/-- Modelled from the spec: agent-handle registration. -/
def set_task_agent (s : TaskStore) (taskId : String) (a : AgentHandle) :
    TaskStore :=
  { s with agents := (taskId, a) :: s.agents.filter (fun e => !(e.1 == taskId)) }

/-- Modelled from the spec: agent-handle removal on completion. -/
def remove_task_agent (s : TaskStore) (taskId : String) : TaskStore :=
  { s with agents := s.agents.filter (fun e => !(e.1 == taskId)) }

/-- Set the stop-requested flag on a registered agent handle, as agent.stop
does (routes.py stop_task, executor.py cleanup_task and cleanup_all_tasks). -/
def agent_stop (s : TaskStore) (taskId : String) : TaskStore :=
  { s with agents := s.agents.map (fun e =>
      if e.1 == taskId then (e.1, { e.2 with stopRequested := true }) else e) }

/-- Set the pause-requested flag on a registered agent handle (agent.pause). -/
def agent_pause (s : TaskStore) (taskId : String) : TaskStore :=
  { s with agents := s.agents.map (fun e =>
      if e.1 == taskId then (e.1, { e.2 with pauseRequested := true }) else e) }

/-- Clear the pause-requested flag on a registered agent handle (agent.resume). -/
def agent_resume (s : TaskStore) (taskId : String) : TaskStore :=
  { s with agents := s.agents.map (fun e =>
      if e.1 == taskId then (e.1, { e.2 with pauseRequested := false }) else e) }

/-! Request and response models, from app/models.py. -/

/-- TaskRequest from app/models.py (lines 9 to 18): exactly the five declared
fields. The ai_provider default is DEFAULT_AI_PROVIDER or the literal
openai string; the concrete value sits in the field here. -/
structure TaskRequest where
  task : String
  aiProvider : Option String
  saveBrowserData : Option Bool
  headful : Option Bool
  useCustomChrome : Option Bool
deriving DecidableEq, Repr

/-- A pydantic model field value, as read through attribute access. -/
inductive PyAttr
  | strVal (s : String)
  | optStrVal (o : Option String)
  | optBoolVal (o : Option Bool)
deriving DecidableEq, Repr

/-- Attribute access on the pydantic TaskRequest model: the five declared
fields resolve to their values; any other attribute name raises
AttributeError (pydantic models do not expose undeclared attributes). -/
def TaskRequest.getattr (r : TaskRequest) : String → Except String PyAttr
  | "task" => .ok (.strVal r.task)
  | "ai_provider" => .ok (.optStrVal r.aiProvider)
  | "save_browser_data" => .ok (.optBoolVal r.saveBrowserData)
  | "headful" => .ok (.optBoolVal r.headful)
  | "use_custom_chrome" => .ok (.optBoolVal r.useCustomChrome)
  | name => .error ("AttributeError: " ++ name)

/-- TaskResponse from app/models.py. -/
structure TaskResponse where
  id : String
  status : String
  liveUrl : String
deriving DecidableEq, Repr

/-- TaskStatusResponse from app/models.py. -/
structure TaskStatusResponse where
  status : String
  result : Option String
  error : Option String
deriving DecidableEq, Repr

/-- An HTTPException raised by a route handler. -/
inductive HTTPError
  | httpException (statusCode : Nat) (detail : String)
deriving DecidableEq, Repr

/-! Route handlers, from app/routes.py. -/

/-- run_task from app/routes.py (lines 46 to 87). The task_data dict
literal (lines 56 to 78) evaluates its values in source order; each value
read from the request is a pydantic attribute access, including
request.use_vision (line 75) and request.output_model_schema (line 76),
which are not declared fields of TaskRequest. On success the handler
stores the record and schedules execute_task as background work
(modelled separately as its own operation), returning the TaskResponse. -/
def run_task (s : TaskStore) (req : TaskRequest) (userId taskId now : String) :
    Except String (TaskStore × TaskResponse) := do
  let liveUrl := "/live/" ++ taskId
  let _v1 ← req.getattr "task"
  let _v2 ← req.getattr "ai_provider"
  let _v3 ← req.getattr "save_browser_data"
  let _v4 ← req.getattr "headful"
  let _v5 ← req.getattr "use_custom_chrome"
  let _v6 ← req.getattr "use_vision"
  let _v7 ← req.getattr "output_model_schema"
  let t : Task := {
    id := taskId, instruction := req.task, aiProvider := req.aiProvider,
    status := .created, createdAt := now, finishedAt := none,
    output := none, error := none, steps := [],
    saveBrowserData := req.saveBrowserData, browserData := none,
    media := [], liveUrl := liveUrl }
  let s2 := create_task s taskId t userId
  return (s2, { id := taskId, status := TaskStatus.created.toStr, liveUrl := liveUrl })

/-- Result slot of validate_task_and_get_agent (routes.py lines 33 to 43):
either the message dict built on a status mismatch, or the task record.
In Python both values are dict instances: the message is a dict literal
and the task record is the dict literal created by run_task, stored and
handed back by the storage layer. -/
inductive ValidateResult
  | messageDict (message : String)
  | taskDict (t : Task)
deriving DecidableEq, Repr

/-- isinstance(result, dict), as tested by pause_task and resume_task:
true for both constructors, because both carry Python dicts. -/
def ValidateResult.isinstanceDict : ValidateResult → Bool
  | _ => true

/-- Helper function validate_task_and_get_agent from routes.py
(lines 33 to 43). -/
def validate_task_and_get_agent (s : TaskStore) (taskId userId : String)
    (expected : TaskStatus) :
    Except HTTPError (Option AgentHandle × ValidateResult) :=
  match get_task s taskId userId with
  | none => .error (.httpException 404 "Task not found")
  | some task =>
    if task.status ≠ expected then
      .ok (none, .messageDict ("Task status is " ++ task.status.toStr ++
        ", expected " ++ expected.toStr))
    else
      .ok (get_task_agent s taskId, .taskDict task)

/-- pause_task from routes.py (lines 168 to 182). -/
def pause_task (s : TaskStore) (taskId userId : String) :
    Except HTTPError (TaskStore × ValidateResult) := do
  let (agent, result) ← validate_task_and_get_agent s taskId userId .running
  if result.isinstanceDict then
    return (s, result)
  else
    match agent with
    | some _ =>
      let s2 := agent_pause s taskId
      let s3 := update_task_status s2 taskId .paused userId
      return (s3, .messageDict "Task paused")
    | none => return (s, .messageDict "Task could not be paused (no agent found)")

/-- resume_task from routes.py (lines 185 to 199). -/
def resume_task (s : TaskStore) (taskId userId : String) :
    Except HTTPError (TaskStore × ValidateResult) := do
  let (agent, result) ← validate_task_and_get_agent s taskId userId .paused
  if result.isinstanceDict then
    return (s, result)
  else
    match agent with
    | some _ =>
      let s2 := agent_resume s taskId
      let s3 := update_task_status s2 taskId .running userId
      return (s3, .messageDict "Task resumed")
    | none => return (s, .messageDict "Task could not be resumed (no agent found)")

/-- stop_task from routes.py (lines 141 to 165). -/
def stop_task (s : TaskStore) (taskId userId now : String) :
    Except HTTPError (TaskStore × ValidateResult) :=
  match get_task s taskId userId with
  | none => .error (.httpException 404 "Task not found")
  | some task =>
    if task.status = .finished ∨ task.status = .failed ∨ task.status = .stopped then
      .ok (s, .messageDict ("Task already in terminal state: " ++ task.status.toStr))
    else
      match get_task_agent s taskId with
      | some _ =>
        let s2 := agent_stop s taskId
        let s3 := update_task_status s2 taskId .stopping userId
        .ok (s3, .messageDict "Task stopping")
      | none =>
        let s2 := update_task_status s taskId .stopped userId
        let s3 := mark_task_finished s2 taskId userId .stopped now
        .ok (s3, .messageDict "Task stopped (no agent found)")

/-- get_task_status from routes.py (lines 90 to 128): the status poll. A
poll of a running task appends a synthetic step record numbered
len(steps) + 1; the screenshot capture attempt it also makes only touches
the media pipeline and swallows its own errors (modelled in the screenshot
section). The response reads status, output and error of the record. -/
def get_task_status (s : TaskStore) (taskId userId now : String) :
    Except HTTPError (TaskStore × TaskStatusResponse) :=
  match get_task s taskId userId with
  | none => .error (.httpException 404 "Task not found")
  | some task =>
    let s2 :=
      if task.status = .running then
        let currentStep := task.steps.length + 1
        add_task_step s taskId
          { step := currentStep, timestamp := now,
            nextGoal := "Progress check " ++ toString currentStep,
            evaluationPreviousGoal := "In progress" } userId
      else s
    .ok (s2, { status := task.status.toStr, result := task.output,
               error := task.error })

/-! Background execution, from task/executor.py. -/

/-- Outcome of the body of execute_task up to and including agent.run():
normal return with the extracted final result (None when the history has
no final result), or any raised exception with its text. Exceptions from
LLM construction, browser configuration, agent creation and the run itself
are all handled by the same except branch. -/
inductive RunOutcome
  | success (finalResult : Option String)
  | failure (err : String)
deriving DecidableEq, Repr

/-- collect_browser_cookies from executor.py (lines 26 to 68): when the
task requested browser data, store the collected cookie list in the
browser_data slot (with its own error slot when collection itself fails);
otherwise leave the record alone. The cookie list collected from the
external session is a parameter. -/
def collect_browser_cookies (s : TaskStore) (taskId userId : String)
    (cookies : List String) : TaskStore :=
  match get_task s taskId userId with
  | none => s
  | some task =>
    if task.saveBrowserData = some true then
      update_task_browser_data s taskId
        { cookies := cookies, collectError := none } userId
    else s

/-- cleanup_task from executor.py (lines 71 to 97): best-effort agent stop
when a handle is registered, best-effort browser close (external, no store
effect), then removal of the agent handle from storage. -/
def cleanup_task (s : TaskStore) (taskId userId : String) : TaskStore :=
  let s1 := match get_task_agent s taskId with
    | some _ => agent_stop s taskId
    | none => s
  remove_task_agent s1 taskId

/-- execute_task from executor.py (lines 100 to 217): transition to
running, set up LLM, browser and agent, register the handle, run the
agent; on normal return mark finished, store the result text (empty string
when the history has no final result), collect cookies best-effort and
fire the completion webhook when subscribed; on any exception mark failed
and store the error text, firing the failure webhook when subscribed; in
either case run cleanup_task. The webhook never mutates the task record.
On the failure path the handle may or may not have been registered before
the exception; cleanup_task removes it either way, so the resulting store
is the same. -/
def execute_task (s : TaskStore) (taskId userId : String) (outcome : RunOutcome)
    (cookies : List String) (now : String) : TaskStore :=
  let s1 := update_task_status s taskId .running userId
  match outcome with
  | .success finalResult =>
    let s2 := set_task_agent s1 taskId
      { stopRequested := false, pauseRequested := false }
    let s3 := mark_task_finished s2 taskId userId .finished now
    let s4 := set_task_output s3 taskId (finalResult.getD "") userId
    let s5 := collect_browser_cookies s4 taskId userId cookies
    cleanup_task s5 taskId userId
  | .failure err =>
    let s2 := update_task_status s1 taskId .failed userId
    let s3 := set_task_error s2 taskId err userId
    let s4 := mark_task_finished s3 taskId userId .failed now
    cleanup_task s4 taskId userId

/-- One iteration of the shutdown sweep in cleanup_all_tasks
(executor.py lines 228 to 252), for the task summary with the given owner
and id: fetch the record, and when its status is RUNNING or PAUSED stop
and deregister its agent if one exists, set status STOPPED and mark it
finished. Tasks in any other status are left untouched. -/
def cleanup_one (s : TaskStore) (userId taskId now : String) : TaskStore :=
  match get_task s taskId userId with
  | none => s
  | some task =>
    if task.status = .running ∨ task.status = .paused then
      let s1 := match get_task_agent s taskId with
        | some _ => remove_task_agent (agent_stop s taskId) taskId
        | none => s
      let s2 := update_task_status s1 taskId .stopped userId
      mark_task_finished s2 taskId userId .stopped now
    else s

/-- cleanup_all_tasks from executor.py (lines 220 to 256): list all tasks
(modelled from the spec as the cross-owner sweep of section 4.2, since the
storage implementation is not in the source tree) and run the per-task
sweep over the listed ids. -/
def cleanup_all_tasks (s : TaskStore) (now : String) : TaskStore :=
  (s.tasks.map (fun e => (e.1, e.2.1))).foldl
    (fun acc p => cleanup_one acc p.1 p.2 now) s

/-! Webhook dispatcher, from task/utils.py trigger_webhook (lines 25 to 112). -/

/-- Outcome of one HTTP POST attempt inside trigger_webhook: a response with
a status code, a timeout (httpx.TimeoutException), or any other transport
exception. -/
inductive AttemptOutcome
  | response (code : Nat)
  | timeout
  | transportError (msg : String)
deriving DecidableEq, Repr

/-- True exactly when trigger_webhook treats the attempt as a success:
a response with 200 <= status_code < 300. -/
def AttemptOutcome.isSuccess : AttemptOutcome → Bool
  | .response code => 200 ≤ code && code < 300
  | _ => false

/-- The retry loop of trigger_webhook: for attempt in range(max_retries),
return True on a 2xx response, otherwise log and fall through; sleep
2 ^ attempt seconds when attempt < max_retries - 1. Returns the boolean
result, the number of attempts made, and the list of backoff sleeps in
seconds. The environment of attempt outcomes is a function so that a
target can answer differently per attempt. -/
def webhook_attempts (outcomes : Nat → AttemptOutcome) (maxRetries : Nat) :
    Nat → Bool × Nat × List Nat
  | attempt =>
    if attempt < maxRetries then
      if (outcomes attempt).isSuccess then
        (true, attempt + 1, [])
      else
        let rest := webhook_attempts outcomes maxRetries (attempt + 1)
        (rest.1, rest.2.1,
          (if attempt < maxRetries - 1 then [2 ^ attempt] else []) ++ rest.2.2)
    else
      (false, attempt, [])
termination_by attempt => maxRetries - attempt

/-- trigger_webhook from task/utils.py: an empty webhook_url short-circuits
to False with no attempt; otherwise the retry loop runs with
max_retries = 3 by default. The JSON payload build is pure data and does
not affect the control flow modelled here. -/
def trigger_webhook (webhookUrl : String) (outcomes : Nat → AttemptOutcome)
    (maxRetries : Nat := 3) : Bool × Nat × List Nat :=
  if webhookUrl == "" then (false, 0, [])
  else webhook_attempts outcomes maxRetries 0

/-! Key pool, from task/llm_pool.py ProviderKeyPool. -/

/-- ProviderKeyPool from task/llm_pool.py: the ordered credential list and
the rotation cursor (current_index starts at 0 in init). -/
structure ProviderKeyPool where
  provider : String
  keys : List String
  currentIndex : Nat
deriving DecidableEq, Repr

/-- next_key from task/llm_pool.py (lines 73 to 86): None when the pool is
empty, otherwise the credential at the cursor, advancing the cursor modulo
the pool size. -/
def next_key (p : ProviderKeyPool) : Option String × ProviderKeyPool :=
  if p.keys.isEmpty then (none, p)
  else (p.keys.get? p.currentIndex,
    { p with currentIndex := (p.currentIndex + 1) % p.keys.length })

/-- N successive next_key calls, collecting the returned credentials. -/
def next_keys (p : ProviderKeyPool) : Nat → List (Option String)
  | 0 => []
  | n + 1 =>
    let r := next_key p
    r.1 :: next_keys r.2 n

/-! LLM construction, from task/llm.py get_llm. -/

/-- The client value produced by get_llm: one constructor per browser_use
chat client that get_llm can return. -/
inductive LLMClient
  | chatAnthropic (model : String) (apiKey : Option String)
  | chatGoogle (model : String) (apiKey : Option String)
  | chatOllama (model : String)
  | chatAzureOpenAI (model : String) (deployment : Option String)
      (apiVersion : String) (endpoint : Option String)
  | chatAWSBedrock (model : String)
  | chatOpenAI (model : String) (baseUrl : Option String) (apiKey : Option String)
deriving DecidableEq, Repr

/-- get_llm from task/llm.py: exact string dispatch on the provider name;
env is os.environ.get and pooledKey is get_pooled_api_key. Every provider
name other than the five recognized ones falls into the final else branch,
which builds a ChatOpenAI client with the pooled openai key. -/
def get_llm (aiProvider : String) (env : String → Option String)
    (pooledKey : String → Option String) : LLMClient :=
  if aiProvider == "anthropic" then
    .chatAnthropic ((env "ANTHROPIC_MODEL_ID").getD "claude-3-opus-20240229")
      (pooledKey "anthropic")
  else if aiProvider == "google" then
    .chatGoogle ((env "GOOGLE_MODEL_ID").getD "gemini-1.5-pro")
      (pooledKey "google")
  else if aiProvider == "ollama" then
    .chatOllama ((env "OLLAMA_MODEL_ID").getD "llama3")
  else if aiProvider == "azure" then
    .chatAzureOpenAI ((env "AZURE_MODEL_ID").getD "gpt-4o")
      (env "AZURE_DEPLOYMENT_NAME") ((env "AZURE_API_VERSION").getD "2023-05-15")
      (env "AZURE_ENDPOINT")
  else if aiProvider == "bedrock" then
    .chatAWSBedrock
      ((env "BEDROCK_MODEL_ID").getD "anthropic.claude-3-sonnet-20240229-v1:0")
  else
    .chatOpenAI ((env "OPENAI_MODEL_ID").getD "gpt-4o") (env "OPENAI_BASE_URL")
      (pooledKey "openai")

/-! Screenshot pipeline, from task/screenshot.py. -/

/-- A Python value handed to process_screenshot_data: None, a bytes object
(a list of byte values), a str (modelled as its character sequence), or
any other object. -/
inductive PyData
  | pyNone
  | pyBytes (b : List Nat)
  | pyStr (s : List Char)
  | pyOther
deriving DecidableEq, Repr

/-- Python truthiness of a screenshot payload: None, empty bytes and the
empty string are falsy; other objects are truthy. -/
def PyData.falsy : PyData → Bool
  | .pyNone => true
  | .pyBytes b => b.isEmpty
  | .pyStr s => s.isEmpty
  | .pyOther => false

/-- Value of one base64 alphabet character, or none for anything else. -/
def b64Index (c : Char) : Option Nat :=
  if 'A' ≤ c ∧ c ≤ 'Z' then some (c.toNat - 65)
  else if 'a' ≤ c ∧ c ≤ 'z' then some (c.toNat - 97 + 26)
  else if '0' ≤ c ∧ c ≤ '9' then some (c.toNat - 48 + 52)
  else if c = '+' then some 62
  else if c = '/' then some 63
  else none

/-- Decode a run of base64 characters four at a time; padding may appear
only at the very end, and a leftover group of fewer than four characters
is a padding error. -/
def b64Chunks : List Char → Except String (List Nat)
  | [] => .ok []
  | a :: b :: c :: d :: rest =>
    match b64Index a, b64Index b with
    | some va, some vb =>
      if c = '=' then
        if d = '=' ∧ rest = [] then .ok [va * 4 + vb / 16]
        else .error "Invalid base64-encoded string"
      else
        match b64Index c with
        | some vc =>
          if d = '=' then
            if rest = [] then .ok [va * 4 + vb / 16, (vb % 16) * 16 + vc / 4]
            else .error "Invalid base64-encoded string"
          else
            match b64Index d with
            | some vd =>
              (fun tail => (va * 4 + vb / 16) :: ((vb % 16) * 16 + vc / 4) ::
                ((vc % 4) * 64 + vd) :: tail) <$> b64Chunks rest
            | none => .error "Invalid base64-encoded string"
        | none => .error "Invalid base64-encoded string"
    | _, _ => .error "Invalid base64-encoded string"
  | _ => .error "Incorrect padding"

/-- Model of base64.b64decode from the Python standard library with its
default validate=False: characters outside the base64 alphabet and the
padding character are discarded first, then the remaining text is decoded
in groups of four; a group shorter than four or misplaced padding is a
binascii error, which the caller catches. -/
def b64decode (s : List Char) : Except String (List Nat) :=
  b64Chunks (s.filter (fun c => (b64Index c).isSome || c = '='))

/-- The data-URL head the decode step tests for with startswith. -/
def dataUrlHead : List Char :=
  ['d', 'a', 't', 'a', ':', 'i', 'm', 'a', 'g', 'e', '/']

/-- startswith on the data-URL head. -/
def starts_with_data_url (s : List Char) : Bool :=
  s.take dataUrlHead.length == dataUrlHead

/-- Remainder of a Python str after the first comma, as computed by
split with maxsplit 1 and index 1; none when the string has no comma,
in which case the index raises IndexError. -/
def afterFirstComma : List Char → Option (List Char)
  | [] => none
  | c :: rest => if c = ',' then some rest else afterFirstComma rest

/-- process_screenshot_data from task/screenshot.py (lines 11 to 32):
falsy input logs and returns None; bytes pass through unchanged; a str
with a data-URL head is cut at its first comma before base64 decoding
(the cut is outside the try block, so a head without any comma raises
IndexError out of the function); base64 decoding failure is caught and
returns None; any other object type logs and returns None. -/
def process_screenshot_data (d : PyData) : Except String (Option (List Nat)) :=
  if d.falsy then .ok none
  else
    match d with
    | .pyBytes b => .ok (some b)
    | .pyStr s0 =>
      if starts_with_data_url s0 then
        match afterFirstComma s0 with
        | none => .error "IndexError: list index out of range"
        | some rest =>
          match b64decode rest with
          | .ok imageData => .ok (some imageData)
          | .error _ => .ok none
      else
        match b64decode s0 with
        | .ok imageData => .ok (some imageData)
        | .error _ => .ok none
    | _ => .ok none

/-- Size tolerance from check_duplicate_screenshot (screenshot.py line 53):
max(1024, min(10240, int(larger_size * 0.005))). The int() of the product
is modelled as the floor of the exact rational product, computed here as
Nat division after scaling by 1000. -/
def size_tolerance (largerSize : Nat) : Nat :=
  max 1024 (min 10240 (largerSize * 5 / 1000))

/-- check_duplicate_screenshot from task/screenshot.py (lines 35 to 65):
empty data is not a duplicate; otherwise the candidate byte length is
compared against the size of every png already stored in the per-task
media directory (given here as a list of file sizes), and the candidate
is a duplicate when some existing size is within the tolerance. The
absolute difference is computed as max minus min. -/
def check_duplicate_screenshot (imageData : List Nat)
    (existingSizes : List Nat) : Bool :=
  if imageData.isEmpty then false
  else
    let currentSize := imageData.length
    existingSizes.any (fun existingSize =>
      let largerSize := max existingSize currentSize
      let sizeDiff := max existingSize currentSize - min existingSize currentSize
      sizeDiff ≤ size_tolerance largerSize)

/-- The eight PNG signature bytes checked by validate_and_save_screenshot. -/
def PNG_SIGNATURE : List Nat := [137, 80, 78, 71, 13, 10, 26, 10]

/-- The step marker embedded in a running-status filename
(screenshot.py lines 89 to 92): the step number of the last recorded step
minus one, or the word initial when the record has no steps (or no record
was found). -/
def current_step_str (task : Option Task) : String :=
  match task with
  | some t =>
    match t.steps.getLast? with
    | some last => toString ((last.step : Int) - 1)
    | none => "initial"
  | none => "initial"

/-- The filename chosen by validate_and_save_screenshot
(screenshot.py lines 85 to 104): final for a finished task, a step-tagged
name for a running task, and a status-tagged name otherwise, each with
the timestamp and a png extension. The task_status argument takes
priority over the stored record status, exactly as the boolean
disjunctions in the source evaluate. -/
def screenshot_filename (task : Option Task) (taskStatus : Option TaskStatus)
    (timestamp : String) : String :=
  let taskIsFinished := match task with
    | some t => t.status == TaskStatus.finished
    | none => false
  let taskIsRunning := match task with
    | some t => t.status == TaskStatus.running
    | none => false
  if taskStatus == some TaskStatus.finished || taskIsFinished then
    "final-" ++ timestamp ++ ".png"
  else if taskStatus == some TaskStatus.running || taskIsRunning then
    "status-step-" ++ current_step_str task ++ "-" ++ timestamp ++ ".png"
  else
    let statusStr := match taskStatus with
      | some st => st.toStr
      | none => match task with
        | some t => t.status.toStr
        | none => "unknown"
    "status-" ++ statusStr ++ "-" ++ timestamp ++ ".png"

/-- validate_and_save_screenshot from task/screenshot.py (lines 68 to 133):
empty data or data not starting with the PNG signature is rejected with
None; otherwise the file is written under the generated filename and a
media entry is appended. The write is modelled as succeeding; the result
is the generated filename (the source returns the media url built
from it). -/
def validate_and_save_screenshot (imageData : List Nat) (task : Option Task)
    (taskStatus : Option TaskStatus) (timestamp : String) : Option String :=
  if imageData.isEmpty then none
  else if imageData.take 8 ≠ PNG_SIGNATURE then none
  else some (screenshot_filename task taskStatus timestamp)

/-- The shared body of automated_screenshot and capture_screenshot
(task/screenshot.py lines 136 to 263): decode, duplicate check, then
validate and save, all inside a catch-all try/except that logs and
produces nothing; both callers pass no explicit task_status. The result
is the media url of a newly persisted artifact, if any; the pipeline
itself never raises. -/
def screenshot_pipeline (d : PyData) (existingSizes : List Nat)
    (task : Option Task) (taskId : String) (timestamp : String) :
    Option String :=
  match process_screenshot_data d with
  | .error _ => none
  | .ok none => none
  | .ok (some imageData) =>
    if check_duplicate_screenshot imageData existingSizes then none
    else
      (validate_and_save_screenshot imageData task none timestamp).map
        (fun fn => "/media/" ++ taskId ++ "/" ++ fn)

/-! Theorems. -/

/-- C10: for every provider name outside the recognized set of anthropic,
google, ollama, azure and bedrock — including arbitrary unknown strings —
get_llm falls into the final else branch and returns the ChatOpenAI client
configured with the pooled openai key (and the OPENAI_MODEL_ID and
OPENAI_BASE_URL environment settings), without raising an
unrecognized-provider error. -/
theorem c10_unknown_provider_falls_back_to_openai
    (p : String) (env pooledKey : String → Option String)
    (hp : p ∉ ["anthropic", "google", "ollama", "azure", "bedrock"]) :
    get_llm p env pooledKey =
      LLMClient.chatOpenAI ((env "OPENAI_MODEL_ID").getD "gpt-4o")
        (env "OPENAI_BASE_URL") (pooledKey "openai") := by
  simp only [List.mem_cons, List.not_mem_nil, or_false, not_or] at hp
  obtain ⟨h1, h2, h3, h4, h5⟩ := hp
  simp [get_llm, h1, h2, h3, h4, h5]

/-- Witness for C10 at the concrete unknown provider name deepseek. -/
theorem c10_witness :
    "deepseek" ∉ ["anthropic", "google", "ollama", "azure", "bedrock"] ∧
    get_llm "deepseek" (fun _ => none) (fun _ => some "k") =
      LLMClient.chatOpenAI "gpt-4o" none (some "k") :=
  ⟨by decide, c10_unknown_provider_falls_back_to_openai "deepseek"
    (fun _ => none) (fun _ => some "k") (by decide)⟩

/-- C5: the webhook deliver makes at most three attempts; it returns true
as soon as an attempt gets a 2xx response; it retries on timeout, on a
transport error and on a non-2xx response, sleeping 2 ^ attempt seconds
after each failed attempt except the last (so 1 second, then 2 seconds);
and against a target whose three attempts all fail — in particular one
that always answers 500 — it returns false after exactly three attempts
without raising. -/
theorem c5_webhook_retry_bound (url : String) (outcomes : Nat → AttemptOutcome)
    (hurl : url ≠ "") :
    ((∀ i, i < 3 → (outcomes i).isSuccess = false) →
      trigger_webhook url outcomes = (false, 3, [1, 2])) ∧
    ((outcomes 0).isSuccess = true →
      trigger_webhook url outcomes = (true, 1, [])) ∧
    ((outcomes 0).isSuccess = false → (outcomes 1).isSuccess = true →
      trigger_webhook url outcomes = (true, 2, [1])) ∧
    ((outcomes 0).isSuccess = false → (outcomes 1).isSuccess = false →
      (outcomes 2).isSuccess = true →
      trigger_webhook url outcomes = (true, 3, [1, 2])) := by
  have hu : (url == "") = false := beq_eq_false_iff_ne.mpr hurl
  refine ⟨?_, ?_, ?_, ?_⟩
  · intro h
    have e0 := h 0 (by norm_num)
    have e1 := h 1 (by norm_num)
    have e2 := h 2 (by norm_num)
    rw [trigger_webhook]
    rw [hu]
    rw [webhook_attempts]; simp only [e0]
    rw [webhook_attempts]; simp only [e1]
    rw [webhook_attempts]; simp only [e2]
    rw [webhook_attempts]
    norm_num
  · intro e0
    rw [trigger_webhook, hu]
    rw [webhook_attempts]; simp only [e0]
    norm_num
  · intro e0 e1
    rw [trigger_webhook, hu]
    rw [webhook_attempts]; simp only [e0]
    rw [webhook_attempts]; simp only [e1]
    norm_num
  · intro e0 e1 e2
    rw [trigger_webhook, hu]
    rw [webhook_attempts]; simp only [e0]
    rw [webhook_attempts]; simp only [e1]
    rw [webhook_attempts]; simp only [e2]
    norm_num

/-- Witness for C5: a target that always answers 500 yields failure after
exactly three attempts with backoffs of 1 and 2 seconds, and a target
that answers 200 on the second attempt yields success after two attempts. -/
theorem c5_witness :
    trigger_webhook "http://n8n.local/webhook"
      (fun _ => AttemptOutcome.response 500) = (false, 3, [1, 2]) ∧
    trigger_webhook "http://n8n.local/webhook"
      (fun i => if i = 0 then AttemptOutcome.timeout
                else AttemptOutcome.response 200) = (true, 2, [1]) := by
  constructor
  · exact (c5_webhook_retry_bound "http://n8n.local/webhook"
      (fun _ => AttemptOutcome.response 500) (by decide)).1
      (fun i _ => by simp [AttemptOutcome.isSuccess])
  · exact ((c5_webhook_retry_bound "http://n8n.local/webhook"
      (fun i => if i = 0 then AttemptOutcome.timeout
                else AttemptOutcome.response 200) (by decide)).2.2.1)
      (by simp [AttemptOutcome.isSuccess]) (by simp [AttemptOutcome.isSuccess])

/-- Helper: next_key on an empty pool returns none and leaves the pool
unchanged, indefinitely. -/
lemma next_keys_nil (p : ProviderKeyPool) (h : p.keys = []) :
    ∀ N, next_keys p N = List.replicate N none := by
  intro N
  induction N with
  | zero => rfl
  | succ n ih =>
    have hk : p.keys.isEmpty = true := by simp [h]
    simp [next_keys, next_key, hk, ih, List.replicate_succ]

/-- Helper: on a non-empty pool the i-th of N successive next_key calls
returns the credential at position (cursor + i) mod size. -/
lemma next_keys_cycle (N : Nat) :
    ∀ (p : ProviderKeyPool), p.keys ≠ [] → p.currentIndex < p.keys.length →
    next_keys p N = (List.range N).map
      (fun i => p.keys.get? ((p.currentIndex + i) % p.keys.length)) := by
  induction N with
  | zero => intro p _ _; rfl
  | succ n ih =>
    intro p hne hidx
    have hk : p.keys.isEmpty = false := by
      cases hkeys : p.keys with
      | nil => exact absurd hkeys hne
      | cons a l => simp
    have hpos : 0 < p.keys.length := List.length_pos.mpr hne
    have step : next_key p = (p.keys.get? p.currentIndex,
        { p with currentIndex := (p.currentIndex + 1) % p.keys.length }) := by
      simp [next_key, hk]
    have hidx2 : (p.currentIndex + 1) % p.keys.length < p.keys.length :=
      Nat.mod_lt _ hpos
    have ihp := ih { p with currentIndex := (p.currentIndex + 1) % p.keys.length }
      hne hidx2
    simp only [next_keys, step]
    rw [ihp]
    rw [List.range_succ_eq_map]
    simp only [List.map_cons, List.map_map]
    congr 1
    · rw [Nat.add_zero, Nat.mod_eq_of_lt hidx]
    · apply List.map_congr_left
      intro i _
      simp only [Function.comp_apply, Function.comp]
      congr 1
      rw [Nat.mod_add_mod]
      congr 1
      omega

/-- Helper: among the first N naturals, those congruent to j modulo K
number N / K, plus one more when j is below N mod K. -/
lemma count_mod_filter (K j : Nat) (hK : 0 < K) (hj : j < K) :
    ∀ N, ((List.range N).filter (fun i => i % K == j)).length =
      N / K + if j < N % K then 1 else 0 := by
  intro N
  induction N with
  | zero => simp
  | succ n ih =>
    rw [List.range_succ, List.filter_append, List.length_append, ih]
    set q := n / K with hqdef
    set r := n % K with hrdef
    have hq : q * K + r = n := by
      rw [Nat.mul_comm]; exact Nat.div_add_mod n K
    have hr : r < K := Nat.mod_lt _ hK
    have hsingle : (List.filter (fun i => i % K == j) [n]).length =
        if r = j then 1 else 0 := by
      by_cases hjr : r = j
      · have hb : (n % K == j) = true := beq_iff_eq.mpr (hrdef ▸ hjr)
        simp [List.filter, hb, hjr]
      · have hb : (n % K == j) = false :=
          beq_eq_false_iff_ne.mpr (hrdef ▸ hjr)
        simp [List.filter, hb, hjr]
    rw [hsingle]
    rcases Nat.lt_or_ge (r + 1) K with hlt | hge
    · have heq : n + 1 = r + 1 + q * K := by omega
      have h1 : (n + 1) / K = q := by
        rw [heq, Nat.add_mul_div_right _ _ hK, Nat.div_eq_of_lt hlt,
          Nat.zero_add]
      have h2 : (n + 1) % K = r + 1 := by
        rw [heq, Nat.add_mul_mod_self_right, Nat.mod_eq_of_lt hlt]
      rw [h1, h2]
      split_ifs <;> omega
    · have hK1 : r + 1 = K := by omega
      have hexp : (q + 1) * K = q * K + K := by ring
      have heq : n + 1 = (q + 1) * K := by omega
      have h1 : (n + 1) / K = q + 1 := by
        rw [heq, Nat.mul_div_cancel _ hK]
      have h2 : (n + 1) % K = 0 := by
        rw [heq, Nat.mul_mod_left]
      rw [h1, h2]
      split_ifs <;> omega

/-- Helper: ceiling division expressed through floor division. -/
lemma ceil_div_eq (N K : Nat) (hK : 0 < K) :
    (N + K - 1) / K = N / K + if N % K = 0 then 0 else 1 := by
  set q := N / K with hqdef
  set r := N % K with hrdef
  have hq : q * K + r = N := by
    rw [Nat.mul_comm]; exact Nat.div_add_mod N K
  have hr : r < K := Nat.mod_lt _ hK
  by_cases hr0 : r = 0
  · have heq : N + K - 1 = (K - 1) + q * K := by omega
    rw [heq, Nat.add_mul_div_right _ _ hK, Nat.div_eq_of_lt (by omega),
      Nat.zero_add]
    simp [hr0]
  · have hexp : (q + 1) * K = q * K + K := by ring
    have heq : N + K - 1 = (r - 1) + (q + 1) * K := by omega
    rw [heq, Nat.add_mul_div_right _ _ hK, Nat.div_eq_of_lt (by omega),
      Nat.zero_add]
    simp [hr0]

/-- C9: the key pool is a round robin. On a pool of K at least 1
credentials with a fresh cursor, the i-th of N successive next_key calls
returns the credential at position i mod K — the pool cycles through the
credentials in their original configuration order — so the number of
calls answering the credential at position j is N / K plus one exactly
when j is below N mod K, which is either the floor or the ceiling of
N / K. On a pool with zero configured credentials every call returns
none (no credential) without raising. -/
theorem c9_key_pool_round_robin (provider : String) (keys : List String)
    (N : Nat) :
    (keys = [] →
      next_keys ⟨provider, keys, 0⟩ N = List.replicate N none) ∧
    (keys ≠ [] →
      next_keys ⟨provider, keys, 0⟩ N =
        (List.range N).map (fun i => keys.get? (i % keys.length)) ∧
      ∀ j, j < keys.length →
        ((List.range N).filter (fun i => i % keys.length == j)).length =
            N / keys.length + (if j < N % keys.length then 1 else 0) ∧
        (((List.range N).filter (fun i => i % keys.length == j)).length =
            N / keys.length ∨
         ((List.range N).filter (fun i => i % keys.length == j)).length =
            (N + keys.length - 1) / keys.length)) := by
  constructor
  · intro h
    exact next_keys_nil ⟨provider, keys, 0⟩ h N
  · intro hne
    have hpos : 0 < keys.length := List.length_pos.mpr hne
    constructor
    · have := next_keys_cycle N ⟨provider, keys, 0⟩ hne hpos
      simpa using this
    · intro j hj
      have hcount := count_mod_filter keys.length j hpos hj N
      refine ⟨hcount, ?_⟩
      by_cases hlt : j < N % keys.length
      · right
        rw [hcount, ceil_div_eq N keys.length hpos]
        have : ¬ (N % keys.length = 0) := by omega
        simp [hlt, this]
      · left
        rw [hcount]
        simp [hlt]

/-- Witness for C9: a pool of three credentials answers seven calls in
cycling order with counts three, two, two; the empty pool answers five
calls with none each time. -/
theorem c9_witness :
    next_keys ⟨"openai", [], 0⟩ 5 = List.replicate 5 none ∧
    next_keys ⟨"openai", ["a", "b", "c"], 0⟩ 7 =
      (List.range 7).map (fun i => ["a", "b", "c"].get? (i % 3)) ∧
    ((List.range 7).filter (fun i => i % 3 == 1)).length =
      7 / 3 + (if 1 < 7 % 3 then 1 else 0) := by
  refine ⟨?_, ?_, ?_⟩
  · exact (c9_key_pool_round_robin "openai" [] 5).1 rfl
  · exact (((c9_key_pool_round_robin "openai" ["a", "b", "c"] 7).2
      (by decide)).1)
  · exact ((((c9_key_pool_round_robin "openai" ["a", "b", "c"] 7).2
      (by decide)).2) 1 (by decide)).1

/-- The duplicate tolerance exactly as the specification words it, over
the rationals: max(1024, min(10240, 0.005 times the larger length)).
It is compared against size_tolerance, the floor-valued tolerance the
code computes. -/
def spec_tolerance (largerLen : Nat) : ℚ :=
  max 1024 (min 10240 ((largerLen : ℚ) * 5 / 1000))

/-- Helper: a natural number strictly below the spec tolerance is at most
the tolerance the code computes. -/
lemma le_size_tolerance_of_lt_spec (d L : Nat)
    (h : (d : ℚ) < spec_tolerance L) : d ≤ size_tolerance L := by
  unfold spec_tolerance at h
  unfold size_tolerance
  rcases lt_max_iff.mp h with h1 | h2
  · have : d < 1024 := by exact_mod_cast h1
    omega
  · rcases lt_min_iff.mp h2 with ⟨ha, hb⟩
    have hd1 : d < 10240 := by exact_mod_cast ha
    have hb2 : (d : ℚ) * 1000 < (L : ℚ) * 5 := by
      have h1000 : (0 : ℚ) < 1000 := by norm_num
      calc (d : ℚ) * 1000 < ((L : ℚ) * 5 / 1000) * 1000 := by
            exact mul_lt_mul_of_pos_right hb h1000
        _ = (L : ℚ) * 5 := by field_simp
    have hb3 : d * 1000 < L * 5 := by exact_mod_cast hb2
    have hb4 : d ≤ L * 5 / 1000 :=
      (Nat.le_div_iff_mul_le (by norm_num)).mpr (Nat.le_of_lt hb3)
    have : d ≤ min 10240 (L * 5 / 1000) := le_min (by omega) hb4
    omega

/-- Helper: a natural number strictly above the spec tolerance is strictly
above the tolerance the code computes. -/
lemma size_tolerance_lt_of_spec_lt (d L : Nat)
    (h : spec_tolerance L < (d : ℚ)) : size_tolerance L < d := by
  unfold spec_tolerance at h
  unfold size_tolerance
  have h1 : (1024 : ℚ) < d := lt_of_le_of_lt (le_max_left _ _) h
  have h1n : 1024 < d := by exact_mod_cast h1
  have h2 : min (10240 : ℚ) ((L : ℚ) * 5 / 1000) < d :=
    lt_of_le_of_lt (le_max_right _ _) h
  rcases min_lt_iff.mp h2 with ha | hb
  · have : 10240 < d := by exact_mod_cast ha
    omega
  · have hb2 : (L : ℚ) * 5 < (d : ℚ) * 1000 := by
      have h1000 : (0 : ℚ) < 1000 := by norm_num
      calc (L : ℚ) * 5 = ((L : ℚ) * 5 / 1000) * 1000 := by field_simp
        _ < (d : ℚ) * 1000 := mul_lt_mul_of_pos_right hb h1000
    have hb3 : L * 5 < d * 1000 := by exact_mod_cast hb2
    have hb4 : L * 5 / 1000 < d := (Nat.div_lt_iff_lt_mul (by norm_num)).mpr hb3
    omega

/-- C6: for two screenshot candidates for the same task — the earlier one
already stored with its byte length, the later one arriving at the
pipeline — the later is treated as a duplicate and dropped with no
artifact when the absolute difference of the byte lengths is strictly
below max(1024, min(10240, 0.005 times the larger length)), and it is
persisted (given it carries the PNG signature) when the difference is
strictly above that tolerance. -/
theorem c6_dedup_size_tolerance (earlierLen : Nat) (laterData : List Nat)
    (t : Option Task) (taskId ts : String) :
    ((((max earlierLen laterData.length -
          min earlierLen laterData.length) : ℕ) : ℚ) <
        spec_tolerance (max earlierLen laterData.length) →
      laterData ≠ [] →
      check_duplicate_screenshot laterData [earlierLen] = true ∧
      screenshot_pipeline (PyData.pyBytes laterData) [earlierLen] t taskId ts =
        none) ∧
    (spec_tolerance (max earlierLen laterData.length) <
        (((max earlierLen laterData.length -
          min earlierLen laterData.length) : ℕ) : ℚ) →
      laterData.take 8 = PNG_SIGNATURE →
      check_duplicate_screenshot laterData [earlierLen] = false ∧
      screenshot_pipeline (PyData.pyBytes laterData) [earlierLen] t taskId ts =
        some ("/media/" ++ taskId ++ "/" ++ screenshot_filename t none ts)) := by
  constructor
  · intro hlt hne
    have hdup : check_duplicate_screenshot laterData [earlierLen] = true := by
      have hemp : laterData.isEmpty = false := by
        cases laterData with
        | nil => exact absurd rfl hne
        | cons a l => simp
      have hle := le_size_tolerance_of_lt_spec _ _ hlt
      simp only [check_duplicate_screenshot, hemp, Bool.false_eq_true,
        if_false, List.any_cons, List.any_nil, Bool.or_false]
      exact decide_eq_true hle
    refine ⟨hdup, ?_⟩
    have hfalsy : (PyData.pyBytes laterData).falsy = false := by
      simp [PyData.falsy]
      cases laterData with
      | nil => exact absurd rfl hne
      | cons a l => simp
    simp [screenshot_pipeline, process_screenshot_data, hfalsy, hdup]
  · intro hgt hpng
    have hne : laterData ≠ [] := by
      intro hnil
      rw [hnil] at hpng
      simp [PNG_SIGNATURE] at hpng
    have hemp : laterData.isEmpty = false := by
      cases laterData with
      | nil => exact absurd rfl hne
      | cons a l => simp
    have hlt := size_tolerance_lt_of_spec_lt _ _ hgt
    have hdup : check_duplicate_screenshot laterData [earlierLen] = false := by
      simp only [check_duplicate_screenshot, hemp, Bool.false_eq_true,
        if_false, List.any_cons, List.any_nil, Bool.or_false]
      exact decide_eq_false (by omega)
    refine ⟨hdup, ?_⟩
    have hfalsy : (PyData.pyBytes laterData).falsy = false := by
      simp [PyData.falsy]
      cases laterData with
      | nil => exact absurd rfl hne
      | cons a l => simp
    simp [screenshot_pipeline, process_screenshot_data, hfalsy, hdup,
      validate_and_save_screenshot, hemp, hpng]

/-- Witness for C6: with an earlier screenshot of 2000 bytes, a later
candidate of 3000 bytes (difference 1000, tolerance 1024) is dropped,
while a PNG candidate of 4008 bytes (difference 2008) is persisted. -/
theorem c6_witness :
    (check_duplicate_screenshot (List.replicate 3000 7) [2000] = true ∧
      screenshot_pipeline (PyData.pyBytes (List.replicate 3000 7)) [2000]
        none "tid" "ts" = none) ∧
    (check_duplicate_screenshot (PNG_SIGNATURE ++ List.replicate 4000 7)
        [2000] = false ∧
      screenshot_pipeline
        (PyData.pyBytes (PNG_SIGNATURE ++ List.replicate 4000 7)) [2000]
        none "tid" "ts" =
        some ("/media/" ++ "tid" ++ "/" ++ screenshot_filename none none "ts")) := by
  constructor
  · exact (c6_dedup_size_tolerance 2000 (List.replicate 3000 7)
      none "tid" "ts").1
      (by norm_num [spec_tolerance, List.length_replicate])
      (by
        intro hh
        have h := List.length_replicate 3000 7
        rw [hh] at h
        simp at h)
  · exact (c6_dedup_size_tolerance 2000 (PNG_SIGNATURE ++ List.replicate 4000 7)
      none "tid" "ts").2
      (by norm_num [spec_tolerance, List.length_append,
        List.length_replicate, PNG_SIGNATURE])
      (by rfl)

/-- A concrete step record for counterexamples and witnesses. -/
def sampleStep (n : Nat) : StepRecord :=
  { step := n, timestamp := "ts", nextGoal := "g", evaluationPreviousGoal := "e" }

/-- A concrete task record for counterexamples and witnesses. -/
def sampleTask (st : TaskStatus) (steps : List StepRecord) : Task :=
  { id := "t1", instruction := "go", aiProvider := some "openai", status := st,
    createdAt := "c", finishedAt := none, output := none, error := none,
    steps := steps, saveBrowserData := none, browserData := none,
    media := [], liveUrl := "/live/t1" }

/-- Counterexample for C7: for a running task whose last recorded step has
sequence number 3, the generated filename carries the marker 2 — the last
step number minus one — not the last step number 3 the claim states. -/
theorem c7_counterexample :
    screenshot_filename
      (some (sampleTask .running [sampleStep 1, sampleStep 2, sampleStep 3]))
      none "T" = "status-step-2-T.png" ∧
    screenshot_filename
      (some (sampleTask .running [sampleStep 1, sampleStep 2, sampleStep 3]))
      none "T" ≠ "status-step-3-T.png" := by
  constructor
  · rfl
  · decide

/-- C7 as amended: when a screenshot is persisted the filename is
final-(timestamp).png for a finished task; for a running task it is
status-step-(n)-(timestamp).png where n is the sequence number of the
last recorded step minus one — or the word initial when no step has been
recorded; and status-(status)-(timestamp).png otherwise. Both pipeline
entry points pass no explicit task_status, so the stored record status
decides the branch. -/
theorem c7_filename_amended (t : Task) (ts : String) :
    (t.status = .finished →
      screenshot_filename (some t) none ts = "final-" ++ ts ++ ".png") ∧
    (t.status = .running → t.steps = [] →
      screenshot_filename (some t) none ts =
        "status-step-initial-" ++ ts ++ ".png") ∧
    (t.status = .running → ∀ last, t.steps.getLast? = some last →
      screenshot_filename (some t) none ts =
        "status-step-" ++ toString ((last.step : Int) - 1) ++ "-" ++ ts ++
          ".png") ∧
    (t.status ≠ .finished → t.status ≠ .running →
      screenshot_filename (some t) none ts =
        "status-" ++ t.status.toStr ++ "-" ++ ts ++ ".png") := by
  refine ⟨?_, ?_, ?_, ?_⟩
  · intro hst
    simp [screenshot_filename, hst]
  · intro hst hsteps
    simp [screenshot_filename, hst, current_step_str, hsteps]
  · intro hst last hlast
    simp [screenshot_filename, hst, current_step_str, hlast]
  · intro hfin hrun
    have h1 : (t.status == TaskStatus.finished) = false :=
      beq_eq_false_iff_ne.mpr hfin
    have h2 : (t.status == TaskStatus.running) = false :=
      beq_eq_false_iff_ne.mpr hrun
    simp [screenshot_filename, h1, h2]

/-- Witness for C7 as amended, at a finished task, a running task with no
steps, a running task whose last step is numbered 3, and a paused task. -/
theorem c7_witness :
    screenshot_filename (some (sampleTask .finished [])) none "T" =
      "final-" ++ "T" ++ ".png" ∧
    screenshot_filename (some (sampleTask .running [])) none "T" =
      "status-step-initial-" ++ "T" ++ ".png" ∧
    screenshot_filename (some (sampleTask .running [sampleStep 3])) none "T" =
      "status-step-" ++ toString ((3 : Int) - 1) ++ "-" ++ "T" ++ ".png" ∧
    screenshot_filename (some (sampleTask .paused [])) none "T" =
      "status-" ++ TaskStatus.paused.toStr ++ "-" ++ "T" ++ ".png" := by
  refine ⟨?_, ?_, ?_, ?_⟩
  · exact (c7_filename_amended (sampleTask .finished []) "T").1 rfl
  · exact (c7_filename_amended (sampleTask .running []) "T").2.1 rfl rfl
  · exact (c7_filename_amended (sampleTask .running [sampleStep 3]) "T").2.2.1
      rfl (sampleStep 3) rfl
  · exact (c7_filename_amended (sampleTask .paused []) "T").2.2.2
      (by decide) (by decide)

/-- C8: the screenshot decode step turns every input into bytes or into
a no-op. Falsy input (None, empty bytes, empty text) yields nothing;
bytes pass through unchanged; text carrying a data-URL head is cut after
the first comma and base64-decoded; other text is base64-decoded as is;
base64 failure is caught and yields nothing; and whenever decoding does
not yield bytes — including the one case where the step itself raises
IndexError, a data-URL head with no comma, which the catch-all in both
pipeline entry points absorbs — the pipeline produces no artifact and
no error reaches its caller (the pipeline function is total). -/
theorem c8_decode_no_op_on_failure (d : PyData) (existing : List Nat)
    (t : Option Task) (taskId ts : String) :
    (d.falsy = true → process_screenshot_data d = .ok none) ∧
    (∀ b, b ≠ [] → d = .pyBytes b → process_screenshot_data d = .ok (some b)) ∧
    (∀ s rest, d = .pyStr s → s ≠ [] → starts_with_data_url s = true →
      afterFirstComma s = some rest →
      process_screenshot_data d = (match b64decode rest with
        | .ok b2 => .ok (some b2)
        | .error _ => .ok none)) ∧
    (∀ s, d = .pyStr s → s ≠ [] → starts_with_data_url s = false →
      process_screenshot_data d = (match b64decode s with
        | .ok b2 => .ok (some b2)
        | .error _ => .ok none)) ∧
    ((process_screenshot_data d = .ok none ∨
        (∃ e, process_screenshot_data d = .error e)) →
      screenshot_pipeline d existing t taskId ts = none) := by
  refine ⟨?_, ?_, ?_, ?_, ?_⟩
  · intro hf
    simp [process_screenshot_data, hf]
  · intro b hb hd
    subst hd
    have hf : (PyData.pyBytes b).falsy = false := by
      simp [PyData.falsy]
      cases b with
      | nil => exact absurd rfl hb
      | cons a l => simp
    simp [process_screenshot_data, hf]
  · intro s rest hd hs hpre hcomma
    subst hd
    have hf : (PyData.pyStr s).falsy = false := by
      simp [PyData.falsy, hs]
    simp only [process_screenshot_data, hf, Bool.false_eq_true, if_false,
      hpre, if_true, hcomma]
  · intro s hd hs hpre
    subst hd
    have hf : (PyData.pyStr s).falsy = false := by
      simp [PyData.falsy, hs]
    simp only [process_screenshot_data, hf, Bool.false_eq_true, if_false,
      hpre]
  · intro hcase
    rcases hcase with h | ⟨e, h⟩ <;>
      simp [screenshot_pipeline, h]

/-- The text data:image/png;base64,AAAA as a character sequence. -/
def sampleDataUrl : List Char :=
  dataUrlHead ++ ['p', 'n', 'g', ';', 'b', 'a', 's', 'e', '6', '4', ',',
    'A', 'A', 'A', 'A']

/-- The text data:image/png;base64 — a data-URL head with no comma. -/
def sampleDataUrlNoComma : List Char :=
  dataUrlHead ++ ['p', 'n', 'g', ';', 'b', 'a', 's', 'e', '6', '4']

/-- Witness for C8: a data-URL payload decodes to its three zero bytes; a
data-URL head without a comma makes the step raise IndexError, yet the
pipeline produces nothing; empty bytes are a no-op; raw bytes pass
through. -/
theorem c8_witness :
    process_screenshot_data (PyData.pyStr sampleDataUrl) =
      .ok (some [0, 0, 0]) ∧
    process_screenshot_data (PyData.pyStr sampleDataUrlNoComma) =
      .error "IndexError: list index out of range" ∧
    screenshot_pipeline (PyData.pyStr sampleDataUrlNoComma) [] none
      "tid" "ts" = none ∧
    process_screenshot_data (PyData.pyBytes []) = .ok none ∧
    process_screenshot_data (PyData.pyBytes [1, 2, 3]) = .ok (some [1, 2, 3]) := by
  refine ⟨?_, by rfl, ?_, ?_, ?_⟩
  · have h := (c8_decode_no_op_on_failure
      (PyData.pyStr sampleDataUrl) [] none "tid" "ts").2.2.1
      sampleDataUrl ['A', 'A', 'A', 'A'] rfl (by decide) (by decide) (by decide)
    rw [h]
    rfl
  · exact (c8_decode_no_op_on_failure (PyData.pyStr sampleDataUrlNoComma)
      [] none "tid" "ts").2.2.2.2
      (Or.inr ⟨"IndexError: list index out of range", by rfl⟩)
  · exact (c8_decode_no_op_on_failure (PyData.pyBytes []) [] none "tid"
      "ts").1 (by decide)
  · exact (c8_decode_no_op_on_failure (PyData.pyBytes [1, 2, 3]) [] none
      "tid" "ts").2.1 [1, 2, 3] (by decide) rfl

/-- C1 evaluation: for every submit request and every store, run_task
raises AttributeError while building the task_data dict — the value for
the use_vision key reads request.use_vision (routes.py line 75), a field
TaskRequest (app/models.py) does not declare — before reaching
create_task. The submitter therefore receives an HTTP 500, not a task id,
and no Task is created, contradicting the claim that every submit request
creates a Task in the created state and returns its identifier. -/
theorem c1_run_task_raises_attribute_error (s : TaskStore) (req : TaskRequest)
    (userId taskId now : String) :
    run_task s req userId taskId now = .error "AttributeError: use_vision" := by
  rfl

/-- C2 evaluation: pause_task and resume_task never reach their
agent-delegation branch. The helper returns the task record itself on a
status match, the record is a Python dict, so the isinstance(result, dict)
early return fires and hands the record back with the store unchanged:
pausing a running task with a registered agent neither calls agent.pause
nor updates the status (and symmetrically for resume). Only the mismatch
half of the claim holds: a pause of a non-running task (or resume of a
non-paused one) leaves the status unchanged and reports the mismatch. -/
theorem c2_pause_resume_never_delegate (s : TaskStore) (taskId userId : String) :
    (∀ task, get_task s taskId userId = some task → task.status = .running →
      pause_task s taskId userId = .ok (s, .taskDict task)) ∧
    (∀ task, get_task s taskId userId = some task → task.status = .paused →
      resume_task s taskId userId = .ok (s, .taskDict task)) ∧
    (∀ task, get_task s taskId userId = some task → task.status ≠ .running →
      pause_task s taskId userId = .ok (s, .messageDict
        ("Task status is " ++ task.status.toStr ++ ", expected " ++
          TaskStatus.running.toStr))) ∧
    (∀ task, get_task s taskId userId = some task → task.status ≠ .paused →
      resume_task s taskId userId = .ok (s, .messageDict
        ("Task status is " ++ task.status.toStr ++ ", expected " ++
          TaskStatus.paused.toStr))) := by
  refine ⟨?_, ?_, ?_, ?_⟩
  · intro task h hst
    simp [pause_task, validate_task_and_get_agent, h, hst,
      ValidateResult.isinstanceDict]
  · intro task h hst
    simp [resume_task, validate_task_and_get_agent, h, hst,
      ValidateResult.isinstanceDict]
  · intro task h hst
    simp [pause_task, validate_task_and_get_agent, h, hst,
      ValidateResult.isinstanceDict]
  · intro task h hst
    simp [resume_task, validate_task_and_get_agent, h, hst,
      ValidateResult.isinstanceDict]

/-- A store holding one running task owned by the default owner, with a
registered agent handle. -/
def sampleStoreRunning : TaskStore :=
  { tasks := [("default", "t1", sampleTask .running [])],
    agents := [("t1", { stopRequested := false, pauseRequested := false })] }

/-- A store holding one paused task owned by the default owner, with a
registered agent handle. -/
def sampleStorePaused : TaskStore :=
  { tasks := [("default", "t1", sampleTask .paused [])],
    agents := [("t1", { stopRequested := false, pauseRequested := false })] }

/-- Witness for C2 at a concrete store: pausing the running task t1 (with
its agent registered) returns the record and leaves the store unchanged;
resuming the paused store behaves symmetrically; pausing the paused store
reports the mismatch. -/
theorem c2_witness :
    pause_task sampleStoreRunning "t1" "default" =
      .ok (sampleStoreRunning, .taskDict (sampleTask .running [])) ∧
    resume_task sampleStorePaused "t1" "default" =
      .ok (sampleStorePaused, .taskDict (sampleTask .paused [])) ∧
    pause_task sampleStorePaused "t1" "default" =
      .ok (sampleStorePaused, .messageDict
        ("Task status is " ++ TaskStatus.paused.toStr ++ ", expected " ++
          TaskStatus.running.toStr)) := by
  refine ⟨?_, ?_, ?_⟩
  · exact (c2_pause_resume_never_delegate sampleStoreRunning "t1" "default").1
      (sampleTask .running []) rfl rfl
  · exact (c2_pause_resume_never_delegate sampleStorePaused "t1" "default").2.1
      (sampleTask .paused []) rfl rfl
  · have h := (c2_pause_resume_never_delegate sampleStorePaused "t1"
      "default").2.2.1 (sampleTask .paused []) rfl (by decide)
    simpa [sampleTask] using h

/-! Invariant machinery for the terminal-state claim. -/

/-- The terminal-state invariant of the claim, on one task record:
exactly one of output and error is set once the status is finished or
failed; a stopped task never has both; finished_at is set exactly when
the status is terminal. -/
def task_inv (t : Task) : Bool :=
  (t.finishedAt.isSome == t.status.isTerminal) &&
  (if t.status = .finished ∨ t.status = .failed then
    (t.output.isSome && t.error.isNone) || (t.output.isNone && t.error.isSome)
  else true) &&
  (if t.status = .stopped then !(t.output.isSome && t.error.isSome) else true)

/-- The strengthened inductive form of the invariant: additionally, a
task that has not reached a terminal state has neither output nor error
set yet. Every operation preserves this form, and it implies task_inv. -/
def task_inv_strong (t : Task) : Bool :=
  task_inv t &&
  (if t.status.isTerminal then true else t.output.isNone && t.error.isNone)

/-- The invariant over a store: every task the store can hand out
satisfies it. -/
def store_inv (s : TaskStore) : Prop :=
  ∀ u i t, get_task s i u = some t → task_inv t = true

/-- The strengthened invariant over a store. -/
def store_inv_strong (s : TaskStore) : Prop :=
  ∀ u i t, get_task s i u = some t → task_inv_strong t = true

lemma task_inv_of_strong {t : Task} (h : task_inv_strong t = true) :
    task_inv t = true := by
  unfold task_inv_strong at h
  exact (Bool.and_eq_true_iff.mp h).1

lemma store_inv_of_strong {s : TaskStore} (h : store_inv_strong s) :
    store_inv s :=
  fun u i t ht => task_inv_of_strong (h u i t ht)

/-- Helper: a store whose task list passes the entrywise boolean check
satisfies the strengthened invariant. -/
lemma store_inv_strong_of_all {s : TaskStore}
    (h : s.tasks.all (fun e => task_inv_strong e.2.2) = true) :
    store_inv_strong s := by
  intro u i t ht
  unfold get_task at ht
  cases hf : s.tasks.find? (fun e => e.1 == u && e.2.1 == i) with
  | none => rw [hf] at ht; cases ht
  | some e =>
    rw [hf] at ht
    have hmem := List.mem_of_find?_eq_some hf
    have := List.all_eq_true.mp h e hmem
    cases ht
    exact this

/-! Lenses: how each storage operation changes what get_task returns. -/

/-- Helper: find? commutes with a map whose function does not change the
value of the search predicate. -/
lemma find_map_pred_inv {α : Type} (l : List α) (g : α → α) (p : α → Bool)
    (hg : ∀ e, p (g e) = p e) : (l.map g).find? p = (l.find? p).map g := by
  induction l with
  | nil => rfl
  | cons a l ih =>
    rw [List.map_cons, List.find?_cons, List.find?_cons, hg a]
    cases hpa : p a
    · exact ih
    · rfl

lemma get_task_update_self (s : TaskStore) (i u : String) (f : Task → Task) :
    get_task (update_task_rec s i u f) i u = (get_task s i u).map f := by
  unfold get_task update_task_rec
  have hg : ∀ e : String × String × Task,
      ((fun e2 : String × String × Task => e2.1 == u && e2.2.1 == i)
        (if e.1 == u && e.2.1 == i then (e.1, e.2.1, f e.2.2) else e)) =
      (e.1 == u && e.2.1 == i) := by
    intro e
    by_cases hc : (e.1 == u && e.2.1 == i) = true
    · rw [if_pos hc]
    · rw [if_neg hc]
  rw [find_map_pred_inv s.tasks _ _ hg]
  cases hfind : s.tasks.find? (fun e => e.1 == u && e.2.1 == i) with
  | none => rfl
  | some e =>
    have hpe : (e.1 == u && e.2.1 == i) = true := by
      have := List.find?_some hfind
      simpa using this
    have h1 : e.1 = u := by
      have := (Bool.and_eq_true_iff.mp hpe).1
      simpa using this
    have h2 : e.2.1 = i := by
      have := (Bool.and_eq_true_iff.mp hpe).2
      simpa using this
    simp [h1, h2]

lemma get_task_update_ne (s : TaskStore) (i u : String) (f : Task → Task)
    (i2 u2 : String) (h : ¬(u2 = u ∧ i2 = i)) :
    get_task (update_task_rec s i u f) i2 u2 = get_task s i2 u2 := by
  unfold get_task update_task_rec
  have hg : ∀ e : String × String × Task,
      ((fun e2 : String × String × Task => e2.1 == u2 && e2.2.1 == i2)
        (if e.1 == u && e.2.1 == i then (e.1, e.2.1, f e.2.2) else e)) =
      (e.1 == u2 && e.2.1 == i2) := by
    intro e
    by_cases hc : (e.1 == u && e.2.1 == i) = true
    · rw [if_pos hc]
    · rw [if_neg hc]
  rw [find_map_pred_inv s.tasks _ _ hg]
  cases hfind : s.tasks.find? (fun e => e.1 == u2 && e.2.1 == i2) with
  | none => rfl
  | some e =>
    have hpe : (e.1 == u2 && e.2.1 == i2) = true := by
      have := List.find?_some hfind
      simpa using this
    have he1 : e.1 = u2 := by
      have := (Bool.and_eq_true_iff.mp hpe).1
      simpa using this
    have he2 : e.2.1 = i2 := by
      have := (Bool.and_eq_true_iff.mp hpe).2
      simpa using this
    have hc : (e.1 == u && e.2.1 == i) = false := by
      by_cases hcc : (e.1 == u && e.2.1 == i) = true
      · exfalso
        have h1 : e.1 = u := by
          have := (Bool.and_eq_true_iff.mp hcc).1
          simpa using this
        have h2 : e.2.1 = i := by
          have := (Bool.and_eq_true_iff.mp hcc).2
          simpa using this
        exact h ⟨by rw [← he1, h1], by rw [← he2, h2]⟩
      · simpa using hcc
    have hcond : ¬(e.1 = u ∧ e.2.1 = i) := by
      intro hcc
      exact h ⟨by rw [← he1, hcc.1], by rw [← he2, hcc.2]⟩
    simp [hcond]

lemma get_task_agent_stop (s : TaskStore) (k i u : String) :
    get_task (agent_stop s k) i u = get_task s i u := rfl

lemma get_task_set_agent (s : TaskStore) (k : String) (a : AgentHandle)
    (i u : String) : get_task (set_task_agent s k a) i u = get_task s i u := rfl

lemma get_task_remove_agent (s : TaskStore) (k i u : String) :
    get_task (remove_task_agent s k) i u = get_task s i u := rfl

lemma get_task_cleanup (s : TaskStore) (k u2 i u : String) :
    get_task (cleanup_task s k u2) i u = get_task s i u := by
  unfold cleanup_task
  cases h : get_task_agent s k <;> rfl

/-- The record-level effect of collect_browser_cookies on the task it
touches. -/
def collect_record (cookies : List String) (t : Task) : Task :=
  if t.saveBrowserData = some true then
    { t with browserData := some { cookies := cookies, collectError := none } }
  else t

lemma get_task_collect_self (s : TaskStore) (i u : String)
    (cookies : List String) :
    get_task (collect_browser_cookies s i u cookies) i u =
      (get_task s i u).map (collect_record cookies) := by
  unfold collect_browser_cookies
  cases hg : get_task s i u with
  | none => simp [hg]
  | some task =>
    by_cases hb : task.saveBrowserData = some true
    · simp only [hg, if_pos hb]
      unfold update_task_browser_data
      rw [get_task_update_self, hg]
      simp [collect_record, hb]
    · simp only [hg, if_neg hb]
      simp [collect_record, hb]

lemma get_task_collect_ne (s : TaskStore) (i u : String)
    (cookies : List String) (i2 u2 : String) (h : ¬(u2 = u ∧ i2 = i)) :
    get_task (collect_browser_cookies s i u cookies) i2 u2 =
      get_task s i2 u2 := by
  unfold collect_browser_cookies
  cases hg : get_task s i u with
  | none => rfl
  | some task =>
    by_cases hb : task.saveBrowserData = some true
    · simp only [hg, if_pos hb]
      unfold update_task_browser_data
      exact get_task_update_ne s i u _ i2 u2 h
    · simp only [hg, if_neg hb]

/-- The record-level effect of execute_task on the task it drives: on
success the record reaches finished with finished_at and the output text
set (plus the cookie slot when requested); on failure it reaches failed
with finished_at and the error text set. -/
def exec_record (oc : RunOutcome) (cookies : List String) (now : String)
    (t : Task) : Task :=
  match oc with
  | .success fr => collect_record cookies
      { t with status := .finished, finishedAt := some now,
               output := some (fr.getD "") }
  | .failure err =>
      { t with status := .failed, finishedAt := some now, error := some err }

lemma get_task_execute_self (s : TaskStore) (i u : String) (oc : RunOutcome)
    (cookies : List String) (now : String) :
    get_task (execute_task s i u oc cookies now) i u =
      (get_task s i u).map (exec_record oc cookies now) := by
  cases oc with
  | success fr =>
    simp only [execute_task]
    rw [get_task_cleanup, get_task_collect_self]
    unfold set_task_output mark_task_finished
    rw [get_task_update_self, get_task_update_self, get_task_set_agent]
    unfold update_task_status
    rw [get_task_update_self]
    cases hg : get_task s i u <;> rfl
  | failure err =>
    simp only [execute_task]
    rw [get_task_cleanup]
    unfold mark_task_finished set_task_error update_task_status
    rw [get_task_update_self, get_task_update_self, get_task_update_self,
      get_task_update_self]
    cases hg : get_task s i u <;> rfl

lemma get_task_execute_ne (s : TaskStore) (i u : String) (oc : RunOutcome)
    (cookies : List String) (now : String) (i2 u2 : String)
    (h : ¬(u2 = u ∧ i2 = i)) :
    get_task (execute_task s i u oc cookies now) i2 u2 = get_task s i2 u2 := by
  cases oc with
  | success fr =>
    simp only [execute_task]
    rw [get_task_cleanup, get_task_collect_ne _ _ _ _ _ _ h]
    unfold set_task_output mark_task_finished
    rw [get_task_update_ne _ _ _ _ _ _ h, get_task_update_ne _ _ _ _ _ _ h,
      get_task_set_agent]
    unfold update_task_status
    rw [get_task_update_ne _ _ _ _ _ _ h]
  | failure err =>
    simp only [execute_task]
    rw [get_task_cleanup]
    unfold mark_task_finished set_task_error update_task_status
    rw [get_task_update_ne _ _ _ _ _ _ h, get_task_update_ne _ _ _ _ _ _ h,
      get_task_update_ne _ _ _ _ _ _ h, get_task_update_ne _ _ _ _ _ _ h]

/-- Helper: a non-terminal task satisfying the strengthened invariant has
no finished time, no output and no error yet. -/
lemma strong_nonterminal_fields (t : Task) (hs : task_inv_strong t = true)
    (hnt : t.status.isTerminal = false) :
    t.finishedAt = none ∧ t.output = none ∧ t.error = none := by
  unfold task_inv_strong task_inv at hs
  rw [hnt] at hs
  cases hf : t.finishedAt <;> cases ho : t.output <;> cases he : t.error <;>
    rw [hf, ho, he] at hs <;> simp_all

/-- Helper: the record execute_task leaves behind satisfies the
strengthened invariant whenever the record had no output and no error
before the run finished. -/
lemma exec_record_strong (oc : RunOutcome) (cookies : List String)
    (now : String) (t : Task) (ho : t.output = none) (he : t.error = none) :
    task_inv_strong (exec_record oc cookies now t) = true := by
  cases oc with
  | success fr =>
    unfold exec_record collect_record
    by_cases hb : t.saveBrowserData = some true
    · simp [task_inv_strong, task_inv, TaskStatus.isTerminal, he, hb]
    · simp [task_inv_strong, task_inv, TaskStatus.isTerminal, he, hb]
  | failure err =>
    simp [exec_record, task_inv_strong, task_inv, TaskStatus.isTerminal, ho]

lemma preserve_execute (s : TaskStore) (i u : String) (oc : RunOutcome)
    (cookies : List String) (now : String) (hs : store_inv_strong s)
    (hpre : ∀ t, get_task s i u = some t → t.output = none ∧ t.error = none) :
    store_inv_strong (execute_task s i u oc cookies now) := by
  intro u2 i2 t2 ht2
  by_cases hk : u2 = u ∧ i2 = i
  · obtain ⟨rfl, rfl⟩ := hk
    rw [get_task_execute_self] at ht2
    cases hg : get_task s i2 u2 with
    | none => rw [hg] at ht2; cases ht2
    | some t0 =>
      rw [hg] at ht2
      simp only [Option.map_some'] at ht2
      injection ht2 with h2
      have hoe := hpre t0 hg
      rw [← h2]
      exact exec_record_strong oc cookies now t0 hoe.1 hoe.2
  · rw [get_task_execute_ne _ _ _ _ _ _ _ _ hk] at ht2
    exact hs u2 i2 t2 ht2

/-- Helper: a task forced to stopped with its finished time set satisfies
the strengthened invariant when it had neither output nor error. -/
lemma stopped_record_strong (t : Task) (now : String) (ho : t.output = none)
    (he : t.error = none) :
    task_inv_strong { t with status := .stopped, finishedAt := some now } =
      true := by
  simp [task_inv_strong, task_inv, TaskStatus.isTerminal, ho, he]

/-- Helper: a task moved to stopping keeps the strengthened invariant when
it was non-terminal with the invariant holding. -/
lemma stopping_record_strong (t : Task) (hf : t.finishedAt = none)
    (ho : t.output = none) (he : t.error = none) :
    task_inv_strong { t with status := .stopping } = true := by
  simp [task_inv_strong, task_inv, TaskStatus.isTerminal, hf, ho, he]

/-- Helper: statuses outside the terminal three have isTerminal false. -/
lemma not_terminal_of_not_mem (st : TaskStatus)
    (h : ¬(st = .finished ∨ st = .failed ∨ st = .stopped)) :
    st.isTerminal = false := by
  cases st <;> simp_all [TaskStatus.isTerminal]

lemma preserve_stop (s : TaskStore) (i u now : String)
    (hs : store_inv_strong s) :
    store_inv_strong (match stop_task s i u now with
      | .ok (s2, _) => s2
      | .error _ => s) := by
  unfold stop_task
  cases hg : get_task s i u with
  | none => exact hs
  | some task =>
    by_cases hterm : task.status = .finished ∨ task.status = .failed ∨
        task.status = .stopped
    · simp only [if_pos hterm]
      exact hs
    · simp only [if_neg hterm]
      have hnt : task.status.isTerminal = false :=
        not_terminal_of_not_mem task.status hterm
      cases ha : get_task_agent s i with
      | some a =>
        intro u2 i2 t2 ht2
        by_cases hk : u2 = u ∧ i2 = i
        · obtain ⟨rfl, rfl⟩ := hk
          unfold update_task_status at ht2
          rw [get_task_update_self, get_task_agent_stop, hg] at ht2
          simp only [Option.map_some'] at ht2
          injection ht2 with h2
          have hfields := strong_nonterminal_fields task (hs u2 i2 task hg) hnt
          rw [← h2]
          exact stopping_record_strong task hfields.1 hfields.2.1 hfields.2.2
        · unfold update_task_status at ht2
          rw [get_task_update_ne _ _ _ _ _ _ hk, get_task_agent_stop] at ht2
          exact hs u2 i2 t2 ht2
      | none =>
        intro u2 i2 t2 ht2
        by_cases hk : u2 = u ∧ i2 = i
        · obtain ⟨rfl, rfl⟩ := hk
          unfold mark_task_finished update_task_status at ht2
          rw [get_task_update_self, get_task_update_self, hg] at ht2
          simp only [Option.map_some'] at ht2
          injection ht2 with h2
          have hfields := strong_nonterminal_fields task (hs u2 i2 task hg) hnt
          rw [← h2]
          exact stopped_record_strong task now hfields.2.1 hfields.2.2
        · unfold mark_task_finished update_task_status at ht2
          rw [get_task_update_ne _ _ _ _ _ _ hk,
            get_task_update_ne _ _ _ _ _ _ hk] at ht2
          exact hs u2 i2 t2 ht2

lemma pause_store_eq (s : TaskStore) (i u : String) :
    (match pause_task s i u with
      | .ok (s2, _) => s2
      | .error _ => s) = s := by
  unfold pause_task validate_task_and_get_agent
  cases hg : get_task s i u with
  | none => rfl
  | some task =>
    by_cases hst : task.status ≠ TaskStatus.running
    · simp only [if_pos hst]
      rfl
    · simp only [if_neg hst]
      rfl

lemma resume_store_eq (s : TaskStore) (i u : String) :
    (match resume_task s i u with
      | .ok (s2, _) => s2
      | .error _ => s) = s := by
  unfold resume_task validate_task_and_get_agent
  cases hg : get_task s i u with
  | none => rfl
  | some task =>
    by_cases hst : task.status ≠ TaskStatus.paused
    · simp only [if_pos hst]
      rfl
    · simp only [if_neg hst]
      rfl

lemma preserve_poll (s : TaskStore) (i u now : String)
    (hs : store_inv_strong s) :
    store_inv_strong (match get_task_status s i u now with
      | .ok (s2, _) => s2
      | .error _ => s) := by
  unfold get_task_status
  cases hg : get_task s i u with
  | none => exact hs
  | some task =>
    by_cases hr : task.status = .running
    · simp only [if_pos hr]
      intro u2 i2 t2 ht2
      by_cases hk : u2 = u ∧ i2 = i
      · obtain ⟨rfl, rfl⟩ := hk
        unfold add_task_step at ht2
        rw [get_task_update_self, hg] at ht2
        simp only [Option.map_some'] at ht2
        injection ht2 with h2
        have hstep : task_inv_strong { task with steps := task.steps ++
            [{ step := task.steps.length + 1, timestamp := now,
               nextGoal := "Progress check " ++ toString (task.steps.length + 1),
               evaluationPreviousGoal := "In progress" }] } =
            task_inv_strong task := rfl
        rw [← h2, hstep]
        exact hs u2 i2 task hg
      · unfold add_task_step at ht2
        rw [get_task_update_ne _ _ _ _ _ _ hk] at ht2
        exact hs u2 i2 t2 ht2
    · simp only [if_neg hr]
      exact hs

lemma preserve_cleanup_one (s : TaskStore) (u k now : String)
    (hs : store_inv_strong s) :
    store_inv_strong (cleanup_one s u k now) := by
  unfold cleanup_one
  cases hg : get_task s k u with
  | none => exact hs
  | some task =>
    by_cases hrp : task.status = .running ∨ task.status = .paused
    · simp only [if_pos hrp]
      have hnt : task.status.isTerminal = false := by
        rcases hrp with h | h <;> rw [h] <;> rfl
      intro u2 i2 t2 ht2
      cases ha : get_task_agent s k with
      | some a =>
        simp only [ha] at ht2
        by_cases hk : u2 = u ∧ i2 = k
        · obtain ⟨rfl, rfl⟩ := hk
          unfold mark_task_finished update_task_status at ht2
          rw [get_task_update_self, get_task_update_self,
            get_task_remove_agent, get_task_agent_stop, hg] at ht2
          simp only [Option.map_some'] at ht2
          injection ht2 with h2
          have hfields := strong_nonterminal_fields task (hs u2 i2 task hg) hnt
          rw [← h2]
          exact stopped_record_strong task now hfields.2.1 hfields.2.2
        · unfold mark_task_finished update_task_status at ht2
          rw [get_task_update_ne _ _ _ _ _ _ hk,
            get_task_update_ne _ _ _ _ _ _ hk, get_task_remove_agent,
            get_task_agent_stop] at ht2
          exact hs u2 i2 t2 ht2
      | none =>
        simp only [ha] at ht2
        by_cases hk : u2 = u ∧ i2 = k
        · obtain ⟨rfl, rfl⟩ := hk
          unfold mark_task_finished update_task_status at ht2
          rw [get_task_update_self, get_task_update_self, hg] at ht2
          simp only [Option.map_some'] at ht2
          injection ht2 with h2
          have hfields := strong_nonterminal_fields task (hs u2 i2 task hg) hnt
          rw [← h2]
          exact stopped_record_strong task now hfields.2.1 hfields.2.2
        · unfold mark_task_finished update_task_status at ht2
          rw [get_task_update_ne _ _ _ _ _ _ hk,
            get_task_update_ne _ _ _ _ _ _ hk] at ht2
          exact hs u2 i2 t2 ht2
    · simp only [if_neg hrp]
      exact hs

lemma preserve_cleanup_fold (now : String) :
    ∀ (l : List (String × String)) (s : TaskStore), store_inv_strong s →
    store_inv_strong (l.foldl (fun acc p => cleanup_one acc p.1 p.2 now) s) := by
  intro l
  induction l with
  | nil => intro s hs; exact hs
  | cons p l ih =>
    intro s hs
    exact ih _ (preserve_cleanup_one s p.1 p.2 now hs)

/-- Helper used by the submit case: run_task always raises the
AttributeError while building task_data (see the C1 analysis), leaving
the store untouched. -/
lemma run_task_always_errors (s : TaskStore) (req : TaskRequest)
    (userId taskId now : String) :
    run_task s req userId taskId now = .error "AttributeError: use_vision" :=
  rfl

/-- The orchestrator operations of the claim, one constructor per
control-plane or background operation, with the data each one consumes.
The run operation carries the outcome of the external agent run and the
cookies the session would hand back. -/
inductive OrchestratorOp
  | submit (req : TaskRequest) (userId taskId now : String)
  | runExec (taskId userId : String) (outcome : RunOutcome)
      (cookies : List String) (now : String)
  | stop (taskId userId now : String)
  | pause (taskId userId : String)
  | resume (taskId userId : String)
  | poll (taskId userId now : String)
  | shutdown (now : String)

/-- The store each operation leaves behind (an operation that raises an
HTTPException, or the failing run_task, leaves the store as it was). -/
def apply_op (s : TaskStore) : OrchestratorOp → TaskStore
  | .submit req u i now =>
    match run_task s req u i now with
    | .ok (s2, _) => s2
    | .error _ => s
  | .runExec i u oc cookies now => execute_task s i u oc cookies now
  | .stop i u now =>
    match stop_task s i u now with
    | .ok (s2, _) => s2
    | .error _ => s
  | .pause i u =>
    match pause_task s i u with
    | .ok (s2, _) => s2
    | .error _ => s
  | .resume i u =>
    match resume_task s i u with
    | .ok (s2, _) => s2
    | .error _ => s
  | .poll i u now =>
    match get_task_status s i u now with
    | .ok (s2, _) => s2
    | .error _ => s
  | .shutdown now => cleanup_all_tasks s now

/-- Reachability side condition: a run executes once, launched right after
its task was created, so when it runs the record has no output and no
error yet (no operation other than the run itself sets either). -/
def op_pre (s : TaskStore) : OrchestratorOp → Prop
  | .runExec i u _ _ _ =>
    ∀ t, get_task s i u = some t → t.output = none ∧ t.error = none
  | _ => True

/-- C3: the terminal-state invariant — once a task is finished or failed
exactly one of output and error is set, a stopped task never has both,
and finished_at is set exactly when the status is terminal — is preserved
by every orchestrator operation, in its strengthened inductive form
(non-terminal tasks have neither output nor error yet), for every store
all of whose visible tasks satisfy that form, given the reachability side
condition of the run operation. -/
theorem c3_terminal_invariant_preserved (s : TaskStore) (op : OrchestratorOp)
    (hs : store_inv_strong s) (hpre : op_pre s op) :
    store_inv (apply_op s op) ∧ store_inv_strong (apply_op s op) := by
  have hstrong : store_inv_strong (apply_op s op) := by
    cases op with
    | submit req u i now =>
      simp only [apply_op, run_task_always_errors]
      exact hs
    | runExec i u oc cookies now =>
      exact preserve_execute s i u oc cookies now hs hpre
    | stop i u now => exact preserve_stop s i u now hs
    | pause i u =>
      simp only [apply_op]
      rw [pause_store_eq]
      exact hs
    | resume i u =>
      simp only [apply_op]
      rw [resume_store_eq]
      exact hs
    | poll i u now => exact preserve_poll s i u now hs
    | shutdown now => exact preserve_cleanup_fold now _ s hs
  exact ⟨store_inv_of_strong hstrong, hstrong⟩

/-- Witness for C3: the concrete one-task running store satisfies the
strengthened invariant, the run precondition holds there, and both a
successful run and a stop preserve the invariant. -/
theorem c3_witness :
    (store_inv (apply_op sampleStoreRunning
        (.runExec "t1" "default" (.success (some "done")) [] "now")) ∧
      store_inv_strong (apply_op sampleStoreRunning
        (.runExec "t1" "default" (.success (some "done")) [] "now"))) ∧
    (store_inv (apply_op sampleStoreRunning (.stop "t1" "default" "now")) ∧
      store_inv_strong (apply_op sampleStoreRunning
        (.stop "t1" "default" "now"))) := by
  have hs : store_inv_strong sampleStoreRunning :=
    store_inv_strong_of_all (by decide)
  constructor
  · exact c3_terminal_invariant_preserved sampleStoreRunning
      (.runExec "t1" "default" (.success (some "done")) [] "now") hs
      (by
        intro t ht
        cases ht
        exact ⟨rfl, rfl⟩)
  · exact c3_terminal_invariant_preserved sampleStoreRunning
      (.stop "t1" "default" "now") hs trivial

/-! Machinery for the shutdown-sweep claim. -/

/-- The record-level effect of one shutdown-sweep iteration: a running or
paused task is forced to stopped with its finished time set; any other
task is left alone. -/
def sweep_record (now : String) (t : Task) : Task :=
  if t.status = .running ∨ t.status = .paused then
    { t with status := .stopped, finishedAt := some now }
  else t

lemma sweep_record_idem (now : String) (t : Task) :
    sweep_record now (sweep_record now t) = sweep_record now t := by
  unfold sweep_record
  by_cases h : t.status = .running ∨ t.status = .paused
  · rw [if_pos h]
    rw [if_neg (by simp)]
  · rw [if_neg h, if_neg h]

/-- Whether the sweep iteration for owner u and id k stops that task:
the record is visible and currently running or paused. -/
def swept (s : TaskStore) (u k : String) : Bool :=
  match get_task s k u with
  | some t => t.status == TaskStatus.running || t.status == TaskStatus.paused
  | none => false

lemma get_task_cleanup_one_self (s : TaskStore) (u k now : String) :
    get_task (cleanup_one s u k now) k u =
      (get_task s k u).map (sweep_record now) := by
  unfold cleanup_one
  cases hg : get_task s k u with
  | none => simp [hg]
  | some task =>
    by_cases hrp : task.status = .running ∨ task.status = .paused
    · simp only [hg, if_pos hrp]
      cases ha : get_task_agent s k with
      | some a =>
        unfold mark_task_finished update_task_status
        rw [get_task_update_self, get_task_update_self,
          get_task_remove_agent, get_task_agent_stop, hg]
        simp [sweep_record, hrp]
      | none =>
        unfold mark_task_finished update_task_status
        rw [get_task_update_self, get_task_update_self, hg]
        simp [sweep_record, hrp]
    · simp only [hg, if_neg hrp]
      simp [sweep_record, hrp, hg]

lemma get_task_cleanup_one_ne (s : TaskStore) (u k now : String)
    (i2 u2 : String) (h : ¬(u2 = u ∧ i2 = k)) :
    get_task (cleanup_one s u k now) i2 u2 = get_task s i2 u2 := by
  unfold cleanup_one
  cases hg : get_task s k u with
  | none => rfl
  | some task =>
    by_cases hrp : task.status = .running ∨ task.status = .paused
    · simp only [hg, if_pos hrp]
      cases ha : get_task_agent s k with
      | some a =>
        unfold mark_task_finished update_task_status
        rw [get_task_update_ne _ _ _ _ _ _ h, get_task_update_ne _ _ _ _ _ _ h,
          get_task_remove_agent, get_task_agent_stop]
      | none =>
        unfold mark_task_finished update_task_status
        rw [get_task_update_ne _ _ _ _ _ _ h, get_task_update_ne _ _ _ _ _ _ h]
    · simp only [hg, if_neg hrp]

lemma swept_cleanup_one_ne (s : TaskStore) (p1 p2 now q1 q2 : String)
    (h : ¬(q1 = p1 ∧ q2 = p2)) :
    swept (cleanup_one s p1 p2 now) q1 q2 = swept s q1 q2 := by
  unfold swept
  rw [get_task_cleanup_one_ne s p1 p2 now q2 q1 h]

/-- Helper: flag-updating an agent entry and then dropping its key leaves
the same list as dropping the key directly. -/
lemma filter_map_agents (l : List (String × AgentHandle)) (k : String)
    (g : AgentHandle → AgentHandle) :
    ((l.map (fun e => if e.1 == k then (e.1, g e.2) else e)).filter
      (fun e => !(e.1 == k))) = l.filter (fun e => !(e.1 == k)) := by
  induction l with
  | nil => rfl
  | cons a l ih =>
    by_cases hk : (a.1 == k) = true
    · rw [List.map_cons, if_pos hk]
      rw [List.filter_cons, List.filter_cons]
      simp only [hk]
      simpa using ih
    · rw [List.map_cons, if_neg hk]
      rw [List.filter_cons, List.filter_cons]
      have hk2 : (a.1 == k) = false := by simpa using hk
      simp only [hk2]
      simpa using ih

/-- Helper: dropping one key from the agent table does not change the
lookup of a different key. -/
lemma find_filter_other (l : List (String × AgentHandle)) (kdrop k : String)
    (h : ¬(k = kdrop)) :
    (l.filter (fun e => !(e.1 == kdrop))).find? (fun e => e.1 == k) =
      l.find? (fun e => e.1 == k) := by
  induction l with
  | nil => rfl
  | cons a l ih =>
    rw [List.filter_cons]
    by_cases hd : (a.1 == kdrop) = true
    · have had : a.1 = kdrop := by simpa using hd
      have hak : (a.1 == k) = false := by
        have : ¬(a.1 = k) := fun hc => h (by rw [← hc, had])
        simpa using this
      simp only [hd, Bool.not_true, List.find?_cons, hak]
      simpa using ih
    · have hd2 : (a.1 == kdrop) = false := by simpa using hd
      simp only [hd2, Bool.not_false, List.find?_cons]
      cases hak : (a.1 == k)
      · simpa [List.find?_cons, hak] using ih
      · simp [List.find?_cons, hak]

/-- Helper: dropping a key removes it from the agent table lookup. -/
lemma find_filter_self (l : List (String × AgentHandle)) (k : String) :
    (l.filter (fun e => !(e.1 == k))).find? (fun e => e.1 == k) = none := by
  apply List.find?_eq_none.mpr
  intro e he
  have := List.of_mem_filter he
  simp at this
  simp [this]

/-- Helper: a key absent from the agent table survives a drop of that key
unchanged (the filter removes nothing else). -/
lemma filter_of_absent (l : List (String × AgentHandle)) (k : String)
    (h : l.find? (fun e => e.1 == k) = none) :
    l.filter (fun e => !(e.1 == k)) = l := by
  apply List.filter_eq_self.mpr
  intro e he
  have := List.find?_eq_none.mp h e he
  simpa using this

/-- The agent table after one sweep iteration: when the iteration stops a
running or paused task, the agent entry for that id is gone (whether or
not one existed); otherwise the table is untouched. -/
lemma agents_cleanup_one (s : TaskStore) (u k now : String) :
    (cleanup_one s u k now).agents =
      if swept s u k then s.agents.filter (fun e => !(e.1 == k))
      else s.agents := by
  unfold cleanup_one swept
  cases hg : get_task s k u with
  | none => simp
  | some task =>
    by_cases hrp : task.status = .running ∨ task.status = .paused
    · have hb : (task.status == TaskStatus.running ||
          task.status == TaskStatus.paused) = true := by
        rcases hrp with h | h <;> simp [h]
      simp only [if_pos hrp, hb, if_true]
      cases ha : get_task_agent s k with
      | some a =>
        show (remove_task_agent (agent_stop s k) k).agents = _
        unfold remove_task_agent agent_stop
        dsimp only
        exact filter_map_agents s.agents k
          (fun a => { stopRequested := true,
                      pauseRequested := a.pauseRequested })
      | none =>
        show s.agents = _
        unfold get_task_agent at ha
        have : s.agents.find? (fun e => e.1 == k) = none := by
          cases hf : s.agents.find? (fun e => e.1 == k) with
          | none => rfl
          | some e => rw [hf] at ha; cases ha
        rw [filter_of_absent s.agents k this]
    · have hb : (task.status == TaskStatus.running ||
          task.status == TaskStatus.paused) = false := by
        have h1 : task.status ≠ TaskStatus.running := fun hc => hrp (Or.inl hc)
        have h2 : task.status ≠ TaskStatus.paused := fun hc => hrp (Or.inr hc)
        simp [h1, h2]
      simp only [if_neg hrp, hb]
      simp

lemma list_any_congr {α : Type} (l : List α) (f g : α → Bool)
    (h : ∀ a ∈ l, f a = g a) : l.any f = l.any g := by
  induction l with
  | nil => rfl
  | cons a l ih =>
    simp only [List.any_cons, h a (by simp)]
    rw [ih (fun b hb => h b (by simp [hb]))]

/-- The task a sweep fold hands back for any key: swept once the key was
listed, untouched otherwise. No uniqueness of ids is needed because one
iteration touches exactly its own owner-and-id key and the sweep is
idempotent. -/
lemma cleanup_fold_get (now : String) :
    ∀ (l : List (String × String)) (s : TaskStore) (i2 u2 : String),
    get_task (l.foldl (fun acc p => cleanup_one acc p.1 p.2 now) s) i2 u2 =
      if (u2, i2) ∈ l then (get_task s i2 u2).map (sweep_record now)
      else get_task s i2 u2 := by
  intro l
  induction l with
  | nil => intro s i2 u2; simp
  | cons p l ih =>
    intro s i2 u2
    rw [List.foldl_cons, ih (cleanup_one s p.1 p.2 now) i2 u2]
    by_cases hp : u2 = p.1 ∧ i2 = p.2
    · obtain ⟨h1, h2⟩ := hp
      subst h1
      subst h2
      rw [get_task_cleanup_one_self]
      have hhead : ((p.1, p.2) : String × String) ∈ p :: l := by simp
      rw [if_pos hhead]
      by_cases hl : ((p.1, p.2) : String × String) ∈ l
      · rw [if_pos hl]
        cases hgs : get_task s p.2 p.1 <;> simp [sweep_record_idem]
      · rw [if_neg hl]
    · rw [get_task_cleanup_one_ne s p.1 p.2 now i2 u2 hp]
      have hne : ((u2, i2) : String × String) ≠ p := by
        intro hc
        exact hp ⟨congrArg Prod.fst hc, congrArg Prod.snd hc⟩
      simp [List.mem_cons, hne]

/-- The agent entry a sweep fold leaves for any id: removed as soon as
some listed iteration swept that id, untouched otherwise. Listed ids must
be distinct so that the sweep decision of a later iteration is read off
the original store. -/
lemma cleanup_fold_agents (now : String) :
    ∀ (l : List (String × String)) (s : TaskStore) (k : String),
    (l.map Prod.snd).Nodup →
    get_task_agent (l.foldl (fun acc p => cleanup_one acc p.1 p.2 now) s) k =
      if l.any (fun p => p.2 == k && swept s p.1 p.2) then none
      else get_task_agent s k := by
  intro l
  induction l with
  | nil => intro s k _; simp
  | cons p l ih =>
    intro s k hnd
    rw [List.map_cons] at hnd
    obtain ⟨hph, hnd2⟩ := List.nodup_cons.mp hnd
    rw [List.foldl_cons, ih (cleanup_one s p.1 p.2 now) k hnd2]
    have hany : (l.any (fun q => q.2 == k &&
        swept (cleanup_one s p.1 p.2 now) q.1 q.2)) =
        (l.any (fun q => q.2 == k && swept s q.1 q.2)) := by
      apply list_any_congr
      intro q hq
      have hq2 : q.2 ≠ p.2 := fun hc =>
        hph (hc ▸ List.mem_map_of_mem Prod.snd hq)
      rw [swept_cleanup_one_ne s p.1 p.2 now q.1 q.2 (fun hc => hq2 hc.2)]
    rw [hany]
    by_cases hk : k = p.2
    · by_cases hsw : swept s p.1 p.2 = true
      · have hga : get_task_agent (cleanup_one s p.1 p.2 now) k = none := by
          unfold get_task_agent
          rw [agents_cleanup_one s p.1 p.2 now, if_pos hsw, hk,
            find_filter_self]
          rfl
        have hhead : (p.2 == k && swept s p.1 p.2) = true := by
          simp [hk, hsw]
        rw [hga, List.any_cons]
        simp only [hhead, Bool.true_or]
        split_ifs <;> rfl
      · have hsw2 : swept s p.1 p.2 = false := by simpa using hsw
        have hga : get_task_agent (cleanup_one s p.1 p.2 now) k =
            get_task_agent s k := by
          unfold get_task_agent
          rw [agents_cleanup_one s p.1 p.2 now, hsw2]
          simp
        have hhead : (p.2 == k && swept s p.1 p.2) = false := by
          simp [hsw2]
        rw [hga, List.any_cons]
        simp only [hhead, Bool.false_or]
    · have hga : get_task_agent (cleanup_one s p.1 p.2 now) k =
          get_task_agent s k := by
        unfold get_task_agent
        rw [agents_cleanup_one s p.1 p.2 now]
        by_cases hsw : swept s p.1 p.2 = true
        · rw [if_pos hsw, find_filter_other s.agents p.2 k hk]
        · rw [if_neg hsw]
      have hpk : (p.2 == k) = false := by
        have : ¬(p.2 = k) := fun hc => hk hc.symm
        simpa using this
      rw [hga, List.any_cons]
      simp only [hpk, Bool.false_and, Bool.false_or]

/-- Helper: with globally distinct task ids, membership determines the
result of get_task. -/
lemma find_of_mem_nodup (l : List (String × String × Task))
    (hnd : (l.map (fun e => e.2.1)).Nodup) (u i : String) (t : Task)
    (hm : (u, i, t) ∈ l) :
    l.find? (fun e => e.1 == u && e.2.1 == i) = some (u, i, t) := by
  induction l with
  | nil => cases hm
  | cons a l ih =>
    rw [List.map_cons] at hnd
    obtain ⟨hna, hnd2⟩ := List.nodup_cons.mp hnd
    rcases List.mem_cons.mp hm with heq | hmem
    · rw [← heq]
      rw [List.find?_cons]
      simp
    · have hmm : i ∈ l.map (fun e => e.2.1) := by
        have := List.mem_map_of_mem (fun e => e.2.1) hmem
        simpa using this
      have hpa : (a.1 == u && a.2.1 == i) = false := by
        by_cases hcc : (a.1 == u && a.2.1 == i) = true
        · exfalso
          have h2 : a.2.1 = i := by
            have := (Bool.and_eq_true_iff.mp hcc).2
            simpa using this
          exact hna (h2 ▸ hmm)
        · simpa using hcc
      rw [List.find?_cons, hpa]
      exact ih hnd2 hmem

/-- A store holding one freshly created task and no agent handle. -/
def sampleStoreCreated : TaskStore :=
  { tasks := [("default", "t1", sampleTask .created [])], agents := [] }

/-- Counterexample for C4: the shutdown sweep skips a task in the created
state — its status check covers only RUNNING and PAUSED — so after the
sweep the task is still created, a non-terminal state, contradicting both
the claimed created/stopping coverage and the claim that no task remains
non-terminal after shutdown. -/
theorem c4_counterexample :
    get_task (cleanup_all_tasks sampleStoreCreated "now") "t1" "default" =
      some (sampleTask .created []) ∧
    (sampleTask .created []).status.isTerminal = false ∧
    (sampleTask .created []).finishedAt = none := by
  refine ⟨rfl, rfl, rfl⟩

/-- C4 as amended: the shutdown sweep iterates the listed tasks and
force-transitions exactly those in running or paused status to stopped,
marking them finished and deregistering their agent handles; tasks in any
other status — including the non-terminal created and stopping states —
are left untouched, with their agent handles still registered, so they
can remain non-terminal after shutdown. Task ids are assumed globally
distinct, as the uuid generation guarantees. -/
theorem c4_shutdown_sweep_amended (s : TaskStore) (now : String)
    (hwf : (s.tasks.map (fun e => e.2.1)).Nodup) (u i : String) (t : Task)
    (hm : (u, i, t) ∈ s.tasks) :
    ((t.status = .running ∨ t.status = .paused) →
      get_task (cleanup_all_tasks s now) i u =
        some { t with status := .stopped, finishedAt := some now } ∧
      get_task_agent (cleanup_all_tasks s now) i = none) ∧
    (¬(t.status = .running ∨ t.status = .paused) →
      get_task (cleanup_all_tasks s now) i u = some t ∧
      get_task_agent (cleanup_all_tasks s now) i = get_task_agent s i) := by
  have hget : get_task s i u = some t := by
    unfold get_task
    rw [find_of_mem_nodup s.tasks hwf u i t hm]
    rfl
  have hl : ((u, i) : String × String) ∈
      s.tasks.map (fun e => (e.1, e.2.1)) := by
    have := List.mem_map_of_mem (fun e : String × String × Task =>
      (e.1, e.2.1)) hm
    simpa using this
  have hlnodup : ((s.tasks.map (fun e => (e.1, e.2.1))).map Prod.snd).Nodup := by
    rw [List.map_map]
    simpa [Function.comp] using hwf
  have hfold_get := cleanup_fold_get now (s.tasks.map (fun e => (e.1, e.2.1)))
    s i u
  have hfold_ag := cleanup_fold_agents now
    (s.tasks.map (fun e => (e.1, e.2.1))) s i hlnodup
  constructor
  · intro hrp
    constructor
    · unfold cleanup_all_tasks
      rw [hfold_get, if_pos hl, hget]
      simp [sweep_record, hrp]
    · unfold cleanup_all_tasks
      rw [hfold_ag]
      have hany : ((s.tasks.map (fun e => (e.1, e.2.1))).any
          (fun p => p.2 == i && swept s p.1 p.2)) = true := by
        apply List.any_eq_true.mpr
        refine ⟨(u, i), hl, ?_⟩
        have hsw : swept s u i = true := by
          unfold swept
          rw [hget]
          rcases hrp with h | h <;> simp [h]
        simp [hsw]
      rw [hany]
      simp
  · intro hrp
    constructor
    · unfold cleanup_all_tasks
      rw [hfold_get, if_pos hl, hget]
      simp [sweep_record, hrp]
    · unfold cleanup_all_tasks
      rw [hfold_ag]
      have hany : ((s.tasks.map (fun e => (e.1, e.2.1))).any
          (fun p => p.2 == i && swept s p.1 p.2)) = false := by
        apply List.any_eq_false.mpr
        intro q hq
        obtain ⟨e, hemem, heq⟩ := List.mem_map.mp hq
        rw [← heq]
        by_cases hei : e.2.1 = i
        · have hsame : e = (u, i, t) := by
            apply List.inj_on_of_nodup_map hwf hemem hm
            simpa using hei
          rw [hsame]
          have hsw : swept s u i = false := by
            unfold swept
            rw [hget]
            have h1 : t.status ≠ TaskStatus.running :=
              fun hc => hrp (Or.inl hc)
            have h2 : t.status ≠ TaskStatus.paused :=
              fun hc => hrp (Or.inr hc)
            simp [h1, h2]
          simp [hsw]
        · have : (e.2.1 == i) = false := by simpa using hei
          simp [this]
      rw [hany]
      simp

/-- Witness for C4 as amended: sweeping the one-running-task store stops
the task and removes its agent; sweeping the one-created-task store
changes nothing. -/
theorem c4_witness :
    get_task (cleanup_all_tasks sampleStoreRunning "now") "t1" "default" =
      some { (sampleTask .running []) with
        status := TaskStatus.stopped, finishedAt := some "now" } ∧
    get_task_agent (cleanup_all_tasks sampleStoreRunning "now") "t1" = none ∧
    get_task (cleanup_all_tasks sampleStoreCreated "now") "t1" "default" =
      some (sampleTask .created []) ∧
    get_task_agent (cleanup_all_tasks sampleStoreCreated "now") "t1" =
      get_task_agent sampleStoreCreated "t1" := by
  have hrun := c4_shutdown_sweep_amended sampleStoreRunning "now" (by decide)
    "default" "t1" (sampleTask .running []) (by decide)
  have hcre := c4_shutdown_sweep_amended sampleStoreCreated "now" (by decide)
    "default" "t1" (sampleTask .created []) (by decide)
  refine ⟨?_, ?_, ?_, ?_⟩
  · exact (hrun.1 (Or.inl rfl)).1
  · exact (hrun.1 (Or.inl rfl)).2
  · exact (hcre.2 (by decide)).1
  · exact (hcre.2 (by decide)).2

end BrowserBridge
